import Mathlib

/-!
Verification of the prd-ticket-agent plan-generation pipeline.

Shallow embedding of the four non-UI source modules:
* `src/lib/schema.ts`    — Zod schemas with lenient `.catch` leaf decoding;
* `src/app/page.tsx`     — `cleanPrdText`, `normalizeIds`, `buildPrompt`, the
  `POST` handler with its single-retry oracle protocol, the page-level
  ticket-card `ticketToMarkdown`, and the markdown-module `ticketToMarkdown` /
  `planToMarkdown`;
* `src/lib/linear.ts`    — `encodeForQuery`, `buildLinearNewUrl`,
  `buildLinearLinks`, `ticketMarkdownDescription`.

JavaScript strings are modelled as `List Char` (`Str`), JSON numbers as `Int`.
-/

namespace PrdTicket

/-- JavaScript strings, modelled as lists of unicode code points. -/
abbrev Str := List Char

/-- The whitespace class used by JS `String.prototype.trim` and the regex
class `\s`, restricted to the code points that can actually occur here
(space, tab, newline, carriage return, vertical tab, form feed, NBSP). -/
def isWSChar (c : Char) : Bool :=
  c = ' ' || c = '\t' || c = '\n' || c = '\r' || c.val = 11 || c.val = 12 || c.val = 160

/-- JS `String.prototype.trim`: drop leading and trailing whitespace. -/
def trimChars (s : Str) : Str :=
  ((s.dropWhile isWSChar).reverse.dropWhile isWSChar).reverse

/-- Decimal digit characters for `Nat` rendering (JS template `${n}`). -/
def digitc : Nat → Char
  | 0 => '0' | 1 => '1' | 2 => '2' | 3 => '3' | 4 => '4'
  | 5 => '5' | 6 => '6' | 7 => '7' | 8 => '8' | _ => '9'

/-- Little-endian base-10 digits, with structural fuel so that the kernel
can evaluate it (agrees with `Nat.digits 10`, see `natDigitsAux_eq_digits`). -/
def natDigitsAux : Nat → Nat → List Nat
  | 0, _ => []
  | _ + 1, 0 => []
  | fuel + 1, n + 1 => (n + 1) % 10 :: natDigitsAux fuel ((n + 1) / 10)

/-- Decimal rendering of a natural number, as produced by a JS template
literal `${n}` (most significant digit first). -/
def natToChars (n : Nat) : Str :=
  if n = 0 then ['0'] else ((natDigitsAux n n).map digitc).reverse

/- ## Data model (`src/lib/schema.ts` target types) -/

structure AnalyticsEvent where
  name : Str
  properties : List Str
deriving DecidableEq, Repr

structure TicketAnalytics where
  events : List AnalyticsEvent
deriving DecidableEq, Repr

structure TicketQA where
  testCases : List Str
deriving DecidableEq, Repr

inductive Platform | web | mobile | api | other
deriving DecidableEq, Repr

inductive TicketType | story | task | bug | spike
deriving DecidableEq, Repr

inductive Priority | P0 | P1 | P2 | P3
deriving DecidableEq, Repr

inductive Estimate | S | M | L
deriving DecidableEq, Repr

structure Ticket where
  ticketId : Str
  epicId : Str
  type : TicketType
  title : Str
  userStory : Str
  description : Str
  acceptanceCriteria : List Str
  outOfScope : List Str
  dependencies : List Str
  priority : Priority
  estimate : Estimate
  labels : List Str
  components : List Str
  analytics : TicketAnalytics
  qa : TicketQA
deriving DecidableEq, Repr

structure Epic where
  epicId : Str
  title : Str
  outcome : Str
  tickets : List Str
  edgeCases : List Str
deriving DecidableEq, Repr

structure Meta where
  productName : Str
  platform : Platform
  confidence : Int
  assumptions : List Str
  openQuestions : List Str
deriving DecidableEq, Repr

structure Summary where
  problem : Str
  targetUsers : List Str
  goals : List Str
  nonGoals : List Str
  successMetrics : List Str
deriving DecidableEq, Repr

structure PlanCore where
  meta : Meta
  summary : Summary
  epics : List Epic
  tickets : List Ticket
deriving DecidableEq, Repr

/- ## Referential integrity repairer (`normalizeIds`, src/app/page.tsx) -/

/-- One epic of the first map in `normalizeIds`:
`epicId: e.epicId?.trim() ? e.epicId.trim() : ` then `E` and `idx+1`. -/
def repairEpic (idx : Nat) (e : Epic) : Epic :=
  { e with epicId := if trimChars e.epicId ≠ [] then trimChars e.epicId
                     else 'E' :: natToChars (idx + 1) }

/-- `plan.epics.map((e, idx) => ...)` with the running array index. -/
def repairEpics (idx : Nat) : List Epic → List Epic
  | [] => []
  | e :: es => repairEpic idx e :: repairEpics (idx + 1) es

/-- `epics[0]?.epicId || "E1"`: the first epic's id unless it is absent or
falsy (the empty string). -/
def fallbackEpicId (epics : List Epic) : Str :=
  match epics with
  | [] => ['E', '1']
  | e :: _ => if e.epicId = [] then ['E', '1'] else e.epicId

/-- One ticket of the second map in `normalizeIds`. `fb` is
`epics[0]?.epicId || "E1"` and `ids` the repaired epic-id set. -/
def repairTicket (fb : Str) (ids : List Str) (idx : Nat) (t : Ticket) : Ticket :=
  let ticketId := if trimChars t.ticketId ≠ [] then trimChars t.ticketId
                  else 'T' :: natToChars (idx + 1)
  let epicId := if trimChars t.epicId ≠ [] then trimChars t.epicId else fb
  { t with ticketId := ticketId
         , epicId := if epicId ∈ ids then epicId else fb }

/-- `plan.tickets.map((t, idx) => ...)` with the running array index. -/
def repairTickets (fb : Str) (ids : List Str) (idx : Nat) : List Ticket → List Ticket
  | [] => []
  | t :: ts => repairTicket fb ids idx t :: repairTickets fb ids (idx + 1) ts

/-- `ticketsByEpic[eid] ||= []; ticketsByEpic[eid].push(tid)` on an
association list standing for the `Record<string, string[]>`. -/
def addTicket : List (Str × List Str) → Str → Str → List (Str × List Str)
  | [], eid, tid => [(eid, [tid])]
  | (k, v) :: rest, eid, tid =>
      if k = eid then (k, v ++ [tid]) :: rest else (k, v) :: addTicket rest eid tid

/-- The `for (const t of tickets)` grouping loop of `normalizeIds`. -/
def ticketsByEpic (ts : List Ticket) : List (Str × List Str) :=
  ts.foldl (fun m t => addTicket m t.epicId t.ticketId) []

/-- `ticketsByEpic[e.epicId] ?? []`. -/
def lookupGroup (m : List (Str × List Str)) (eid : Str) : List Str :=
  (m.lookup eid).getD []

/-- `normalizeIds` from src/app/page.tsx (lines 1058-1088), the repair pass. -/
def normalizeIds (plan : PlanCore) : PlanCore :=
  let epics := repairEpics 0 plan.epics
  let epicIds := epics.map Epic.epicId
  let fb := fallbackEpicId epics
  let tickets := repairTickets fb epicIds 0 plan.tickets
  let groups := ticketsByEpic tickets
  let epicsWithTickets := epics.map fun e => { e with tickets := lookupGroup groups e.epicId }
  { plan with epics := epicsWithTickets, tickets := tickets }

/- ## Basic lemmas: trimming and decimal rendering -/

theorem dropWhile_head_false {p : Char → Bool} {l t : Str} {c : Char}
    (h : l.dropWhile p = c :: t) : p c = false := by
  induction l with
  | nil => simp at h
  | cons a l ih =>
    rw [List.dropWhile_cons] at h
    by_cases hp : p a
    · simp [hp] at h; exact ih h
    · simp [hp] at h; rcases h with ⟨h1, _⟩; subst h1; simpa using hp

theorem dropWhile_isSuffix (p : Char → Bool) (l : Str) : l.dropWhile p <:+ l := by
  induction l with
  | nil => simp
  | cons a l ih =>
    rw [List.dropWhile_cons]
    by_cases hp : p a
    · simp only [hp, if_true]
      exact ih.trans (List.suffix_cons a l)
    · simp [hp]

theorem dropWhile_eq_self_of_head {p : Char → Bool} {l : Str}
    (h : ∀ c, l.head? = some c → p c = false) : l.dropWhile p = l := by
  cases l with
  | nil => rfl
  | cons a l => rw [List.dropWhile_cons, h a rfl]; simp

theorem trimChars_head_false {s t : Str} {c : Char}
    (h : trimChars s = c :: t) : isWSChar c = false := by
  unfold trimChars at h
  have h2 : (s.dropWhile isWSChar).reverse.dropWhile isWSChar = (c :: t).reverse := by
    rw [← h, List.reverse_reverse]
  have hsuf : (c :: t).reverse <:+ (s.dropWhile isWSChar).reverse := by
    rw [← h2]; exact dropWhile_isSuffix _ _
  rcases List.reverse_suffix.mp hsuf with ⟨r, hr⟩
  exact dropWhile_head_false hr.symm

theorem trimChars_getLast_false {s : Str} {c : Char}
    (h : (trimChars s).getLast? = some c) : isWSChar c = false := by
  unfold trimChars at h
  rw [List.getLast?_reverse] at h
  cases hd : ((s.dropWhile isWSChar).reverse.dropWhile isWSChar) with
  | nil => rw [hd] at h; simp at h
  | cons a t =>
    rw [hd] at h
    simp at h
    subst h
    exact dropWhile_head_false hd

theorem trimChars_eq_self {s : Str}
    (h1 : ∀ c, s.head? = some c → isWSChar c = false)
    (h2 : ∀ c, s.getLast? = some c → isWSChar c = false) : trimChars s = s := by
  unfold trimChars
  rw [dropWhile_eq_self_of_head h1]
  rw [dropWhile_eq_self_of_head (by simpa [List.head?_reverse] using h2)]
  exact List.reverse_reverse s

theorem trimChars_idem (s : Str) : trimChars (trimChars s) = trimChars s := by
  apply trimChars_eq_self
  · intro c hc
    cases ht : trimChars s with
    | nil => rw [ht] at hc; simp at hc
    | cons a t =>
      rw [ht] at hc; simp at hc; subst hc; exact trimChars_head_false ht
  · intro c hc
    exact trimChars_getLast_false hc

theorem trimChars_eq_self_of_noWS {s : Str}
    (h : ∀ c ∈ s, isWSChar c = false) : trimChars s = s := by
  apply trimChars_eq_self
  · intro c hc
    cases s with
    | nil => simp at hc
    | cons a t => simp at hc; subst hc; exact h _ (by simp)
  · intro c hc
    exact h _ (List.mem_of_getLast?_eq_some hc)

theorem digitc_mem_range (d : Nat) :
    digitc d ∈ (['0','1','2','3','4','5','6','7','8','9'] : Str) := by
  unfold digitc; split <;> decide

theorem isWSChar_digitc (d : Nat) : isWSChar (digitc d) = false := by
  unfold digitc; split <;> decide

theorem natDigitsAux_eq_digits : ∀ fuel n, n ≤ fuel → natDigitsAux fuel n = Nat.digits 10 n
  | 0, 0, _ => by simp [natDigitsAux]
  | 0, n + 1, h => absurd h (by omega)
  | fuel + 1, 0, _ => by simp [natDigitsAux]
  | fuel + 1, n + 1, h => by
    rw [natDigitsAux, natDigitsAux_eq_digits fuel ((n + 1) / 10) (by omega),
      ← Nat.digits_def' (by norm_num : (1 : Nat) < 10) (Nat.succ_pos n)]

theorem natToChars_eq_digits {n : Nat} (h : n ≠ 0) :
    natToChars n = ((Nat.digits 10 n).map digitc).reverse := by
  unfold natToChars
  rw [if_neg h, natDigitsAux_eq_digits n n le_rfl]

theorem natToChars_mem {c : Char} {n : Nat} (h : c ∈ natToChars n) :
    c ∈ (['0','1','2','3','4','5','6','7','8','9'] : Str) := by
  by_cases hn : n = 0
  · subst hn; simp [natToChars] at h; subst h; decide
  · rw [natToChars_eq_digits hn, List.mem_reverse] at h
    rcases List.mem_map.mp h with ⟨d, _, rfl⟩
    exact digitc_mem_range d

theorem natToChars_noWS {c : Char} {n : Nat} (h : c ∈ natToChars n) :
    isWSChar c = false := by
  by_cases hn : n = 0
  · subst hn; simp [natToChars] at h; subst h; decide
  · rw [natToChars_eq_digits hn, List.mem_reverse] at h
    rcases List.mem_map.mp h with ⟨d, _, rfl⟩
    exact isWSChar_digitc d

theorem natToChars_ne_nil (n : Nat) : natToChars n ≠ [] := by
  by_cases hn : n = 0
  · subst hn; simp [natToChars]
  · rw [natToChars_eq_digits hn]
    simp only [ne_eq, List.reverse_eq_nil_iff, List.map_eq_nil_iff]
    exact Nat.digits_ne_nil_iff_ne_zero.mpr hn

theorem digitc_inj_lt {a b : Nat} (ha : a < 10) (hb : b < 10)
    (h : digitc a = digitc b) : a = b := by
  revert h
  have hd : ∀ x < 10, ∀ y < 10, digitc x = digitc y → x = y := by decide
  exact hd a ha b hb

theorem map_digitc_inj : ∀ {l1 l2 : List Nat}, (∀ d ∈ l1, d < 10) → (∀ d ∈ l2, d < 10) →
    l1.map digitc = l2.map digitc → l1 = l2
  | [], [], _, _, _ => rfl
  | [], _ :: _, _, _, h => by simp at h
  | _ :: _, [], _, _, h => by simp at h
  | a :: l1, b :: l2, h1, h2, h => by
    simp only [List.map_cons, List.cons.injEq] at h
    have hab : a = b := digitc_inj_lt (h1 a (by simp)) (h2 b (by simp)) h.1
    have := map_digitc_inj (fun d hd => h1 d (by simp [hd])) (fun d hd => h2 d (by simp [hd])) h.2
    rw [hab, this]

theorem natToChars_inj {m n : Nat} (hm : m ≠ 0) (hn : n ≠ 0)
    (h : natToChars m = natToChars n) : m = n := by
  rw [natToChars_eq_digits hm, natToChars_eq_digits hn] at h
  have h2 := List.reverse_injective h
  have h3 := map_digitc_inj
    (fun d hd => Nat.digits_lt_base (by norm_num) hd)
    (fun d hd => Nat.digits_lt_base (by norm_num) hd) h2
  exact Nat.digits_inj_iff.mp h3

/- ## Lemmas about the repair pass -/

theorem repairEpic_id (idx : Nat) (e : Epic) :
    trimChars (repairEpic idx e).epicId = (repairEpic idx e).epicId ∧
      (repairEpic idx e).epicId ≠ [] := by
  unfold repairEpic
  by_cases h : trimChars e.epicId = []
  · rw [if_neg (by simpa using h)]
    refine ⟨trimChars_eq_self_of_noWS ?_, by simp⟩
    intro c hc
    rcases List.mem_cons.mp hc with rfl | hc
    · decide
    · exact natToChars_noWS hc
  · rw [if_pos h]
    exact ⟨trimChars_idem _, h⟩

theorem mem_repairEpics {e : Epic} : ∀ {idx : Nat} {l : List Epic},
    e ∈ repairEpics idx l → trimChars e.epicId = e.epicId ∧ e.epicId ≠ []
  | _, [], h => by simp [repairEpics] at h
  | idx, x :: xs, h => by
    rcases List.mem_cons.mp h with rfl | h
    · exact repairEpic_id idx x
    · exact mem_repairEpics h

theorem repairEpics_length (idx : Nat) (l : List Epic) :
    (repairEpics idx l).length = l.length := by
  induction l generalizing idx with
  | nil => rfl
  | cons e es ih => simp [repairEpics, ih]

theorem repairEpics_getElem : ∀ (l : List Epic) (idx i : Nat) (h : i < l.length)
    (h2 : i < (repairEpics idx l).length),
    (repairEpics idx l)[i] = repairEpic (idx + i) l[i]
  | e :: es, idx, 0, _, _ => rfl
  | e :: es, idx, i + 1, h, h2 => by
    have ih := repairEpics_getElem es (idx + 1) i (by simpa using Nat.lt_of_succ_lt_succ h)
      (by simpa [repairEpics] using Nat.lt_of_succ_lt_succ h2)
    simp only [repairEpics, List.getElem_cons_succ] at *
    rw [ih, show idx + (i + 1) = idx + 1 + i by omega]

theorem repairEpics_eq_self : ∀ (idx : Nat) (l : List Epic),
    (∀ e ∈ l, trimChars e.epicId = e.epicId ∧ e.epicId ≠ []) → repairEpics idx l = l
  | _, [], _ => rfl
  | idx, e :: es, h => by
    have he := h e (by simp)
    rw [repairEpics, repairEpics_eq_self (idx + 1) es (fun x hx => h x (by simp [hx]))]
    unfold repairEpic
    rw [he.1, if_pos he.2]

theorem fallbackEpicId_props (l : List Epic) :
    trimChars (fallbackEpicId (repairEpics 0 l)) = fallbackEpicId (repairEpics 0 l) ∧
      fallbackEpicId (repairEpics 0 l) ≠ [] := by
  cases l with
  | nil => exact ⟨by decide, by decide⟩
  | cons e es =>
    have he := repairEpic_id 0 e
    rw [show repairEpics 0 (e :: es) = repairEpic 0 e :: repairEpics 1 es from rfl]
    simp only [fallbackEpicId]
    rw [if_neg he.2]
    exact he

theorem fallbackEpicId_mem {l : List Epic} (h : l ≠ []) :
    fallbackEpicId (repairEpics 0 l) ∈ (repairEpics 0 l).map Epic.epicId := by
  cases l with
  | nil => exact absurd rfl h
  | cons e es =>
    have he := repairEpic_id 0 e
    rw [show repairEpics 0 (e :: es) = repairEpic 0 e :: repairEpics 1 es from rfl]
    simp only [fallbackEpicId]
    rw [if_neg he.2]
    simp

theorem repairTicket_props (fb : Str) (ids : List Str) (idx : Nat) (t : Ticket)
    (hfb : trimChars fb = fb ∧ fb ≠ []) :
    (trimChars (repairTicket fb ids idx t).ticketId = (repairTicket fb ids idx t).ticketId ∧
      (repairTicket fb ids idx t).ticketId ≠ []) ∧
    (trimChars (repairTicket fb ids idx t).epicId = (repairTicket fb ids idx t).epicId ∧
      (repairTicket fb ids idx t).epicId ≠ []) ∧
    ((repairTicket fb ids idx t).epicId ∈ ids ∨ (repairTicket fb ids idx t).epicId = fb) := by
  unfold repairTicket
  simp only
  constructor
  · by_cases h : trimChars t.ticketId = []
    · rw [if_neg (by simpa using h)]
      refine ⟨trimChars_eq_self_of_noWS ?_, by simp⟩
      intro c hc
      rcases List.mem_cons.mp hc with rfl | hc
      · decide
      · exact natToChars_noWS hc
    · rw [if_pos h]
      exact ⟨trimChars_idem _, h⟩
  · have heid0 : trimChars (if trimChars t.epicId ≠ [] then trimChars t.epicId else fb) =
        (if trimChars t.epicId ≠ [] then trimChars t.epicId else fb) ∧
        (if trimChars t.epicId ≠ [] then trimChars t.epicId else fb) ≠ [] := by
      by_cases h : trimChars t.epicId = []
      · rw [if_neg (by simpa using h)]; exact hfb
      · rw [if_pos h]; exact ⟨trimChars_idem _, h⟩
    by_cases hmem : (if trimChars t.epicId ≠ [] then trimChars t.epicId else fb) ∈ ids
    · rw [if_pos hmem]
      exact ⟨heid0, Or.inl hmem⟩
    · rw [if_neg hmem]
      exact ⟨hfb, Or.inr rfl⟩

theorem mem_repairTickets {t : Ticket} {fb : Str} {ids : List Str}
    (hfb : trimChars fb = fb ∧ fb ≠ []) : ∀ {idx : Nat} {l : List Ticket},
    t ∈ repairTickets fb ids idx l →
    (trimChars t.ticketId = t.ticketId ∧ t.ticketId ≠ []) ∧
    (trimChars t.epicId = t.epicId ∧ t.epicId ≠ []) ∧
    (t.epicId ∈ ids ∨ t.epicId = fb)
  | _, [], h => by simp [repairTickets] at h
  | idx, x :: xs, h => by
    rcases List.mem_cons.mp h with rfl | h
    · exact repairTicket_props fb ids idx x hfb
    · exact mem_repairTickets hfb h

theorem repairTickets_length (fb : Str) (ids : List Str) (idx : Nat) (l : List Ticket) :
    (repairTickets fb ids idx l).length = l.length := by
  induction l generalizing idx with
  | nil => rfl
  | cons t ts ih => simp [repairTickets, ih]

theorem repairTickets_getElem : ∀ (l : List Ticket) (fb : Str) (ids : List Str) (idx i : Nat)
    (h : i < l.length) (h2 : i < (repairTickets fb ids idx l).length),
    (repairTickets fb ids idx l)[i] = repairTicket fb ids (idx + i) l[i]
  | t :: ts, fb, ids, idx, 0, _, _ => rfl
  | t :: ts, fb, ids, idx, i + 1, h, h2 => by
    have ih := repairTickets_getElem ts fb ids (idx + 1) i (by simpa using Nat.lt_of_succ_lt_succ h)
      (by simpa [repairTickets] using Nat.lt_of_succ_lt_succ h2)
    simp only [repairTickets, List.getElem_cons_succ] at *
    rw [ih, show idx + (i + 1) = idx + 1 + i by omega]

theorem repairTickets_eq_self {fb : Str} {ids : List Str} : ∀ (idx : Nat) (l : List Ticket),
    (∀ t ∈ l, (trimChars t.ticketId = t.ticketId ∧ t.ticketId ≠ []) ∧
      (trimChars t.epicId = t.epicId ∧ t.epicId ≠ []) ∧
      (t.epicId ∈ ids ∨ t.epicId = fb)) → repairTickets fb ids idx l = l
  | _, [], _ => rfl
  | idx, t :: ts, h => by
    have ht := h t (by simp)
    rw [repairTickets, repairTickets_eq_self (idx + 1) ts (fun x hx => h x (by simp [hx]))]
    unfold repairTicket
    simp only
    rw [ht.1.1, if_pos ht.1.2, ht.2.1.1, if_pos ht.2.1.2]
    by_cases hmem : t.epicId ∈ ids
    · rw [if_pos hmem]
    · rw [if_neg hmem]
      rcases ht.2.2 with hin | hfb
      · exact absurd hin hmem
      · rw [← hfb]

theorem lookup_addTicket (m : List (Str × List Str)) (k v eid : Str) :
    (addTicket m k v).lookup eid =
      if eid = k then some (((m.lookup k).getD []) ++ [v]) else m.lookup eid := by
  induction m with
  | nil =>
    by_cases h : eid = k
    · subst h; simp [addTicket, List.lookup]
    · simp [addTicket, List.lookup, h, beq_eq_false_iff_ne.mpr h]
  | cons q rest ih =>
    obtain ⟨a, b⟩ := q
    by_cases hak : a = k
    · subst hak
      by_cases h : eid = a
      · subst h; simp [addTicket, List.lookup]
      · simp [addTicket, List.lookup, h, beq_eq_false_iff_ne.mpr h]
    · by_cases h : eid = a
      · subst h
        simp [addTicket, List.lookup, hak, beq_eq_false_iff_ne.mpr (Ne.symm hak)]
      · simp [addTicket, List.lookup, hak, h, beq_eq_false_iff_ne.mpr h,
          beq_eq_false_iff_ne.mpr (Ne.symm hak), ih]

theorem lookupGroup_addTicket (m : List (Str × List Str)) (k v eid : Str) :
    lookupGroup (addTicket m k v) eid =
      if eid = k then lookupGroup m k ++ [v] else lookupGroup m eid := by
  unfold lookupGroup
  rw [lookup_addTicket]
  by_cases h : eid = k <;> simp [h]

theorem lookupGroup_foldl : ∀ (ts : List Ticket) (m : List (Str × List Str)) (eid : Str),
    lookupGroup (ts.foldl (fun acc t => addTicket acc t.epicId t.ticketId) m) eid =
      lookupGroup m eid ++ (ts.filter (fun t => t.epicId = eid)).map Ticket.ticketId
  | [], m, eid => by simp
  | t :: ts, m, eid => by
    rw [List.foldl_cons, lookupGroup_foldl ts _ eid, lookupGroup_addTicket]
    by_cases h : t.epicId = eid
    · rw [h, if_pos rfl]
      simp [List.filter_cons, h]
    · rw [if_neg (fun hc => h hc.symm)]
      simp [List.filter_cons, h]

theorem lookupGroup_ticketsByEpic (ts : List Ticket) (eid : Str) :
    lookupGroup (ticketsByEpic ts) eid =
      (ts.filter (fun t => t.epicId = eid)).map Ticket.ticketId := by
  unfold ticketsByEpic
  rw [lookupGroup_foldl]
  simp [lookupGroup, List.lookup]

/-- `normalizeIds` written out with the two map passes, the fallback id and
the grouping pass explicit. -/
theorem normalizeIds_unfold (p : PlanCore) :
    normalizeIds p =
      { p with
        epics := (repairEpics 0 p.epics).map fun e =>
          { e with tickets := (lookupGroup
              (ticketsByEpic (repairTickets (fallbackEpicId (repairEpics 0 p.epics))
                ((repairEpics 0 p.epics).map Epic.epicId) 0 p.tickets)) e.epicId) },
        tickets := repairTickets (fallbackEpicId (repairEpics 0 p.epics))
          ((repairEpics 0 p.epics).map Epic.epicId) 0 p.tickets } := rfl

/-- The spec's description of the fallback for a dangling ticket `epicId`:
the first epic's (already repaired) id, or the literal `"E1"` when the plan
has no epics. -/
def firstRepairedEpicId (epics : List Epic) : Str :=
  match epics with
  | [] => ['E', '1']
  | e :: _ => e.epicId

theorem map_epicId_settickets (l : List Epic) (f : Epic → List Str) :
    (l.map fun e => { e with tickets := f e }).map Epic.epicId = l.map Epic.epicId := by
  rw [List.map_map]
  rfl

theorem fallbackEpicId_settickets (l : List Epic) (f : Epic → List Str) :
    fallbackEpicId (l.map fun e => { e with tickets := f e }) = fallbackEpicId l := by
  cases l <;> rfl

theorem firstRepairedEpicId_settickets (l : List Epic) (f : Epic → List Str) :
    firstRepairedEpicId (l.map fun e => { e with tickets := f e }) = firstRepairedEpicId l := by
  cases l <;> rfl

theorem firstRepairedEpicId_eq_fallback (l : List Epic) :
    firstRepairedEpicId (repairEpics 0 l) = fallbackEpicId (repairEpics 0 l) := by
  cases l with
  | nil => rfl
  | cons e es =>
    rw [show repairEpics 0 (e :: es) = repairEpic 0 e :: repairEpics 1 es from rfl]
    simp only [firstRepairedEpicId, fallbackEpicId]
    rw [if_neg (repairEpic_id 0 e).2]

theorem nil_not_mem_repairedIds (l : List Epic) :
    ([] : Str) ∉ (repairEpics 0 l).map Epic.epicId := by
  intro h
  rcases List.mem_map.mp h with ⟨e, he, hid⟩
  exact (mem_repairEpics he).2 hid

/- ## Fixture values for witnesses and counterexamples -/

def blankTicket : Ticket where
  ticketId := []
  epicId := []
  type := TicketType.task
  title := []
  userStory := []
  description := []
  acceptanceCriteria := []
  outOfScope := []
  dependencies := []
  priority := Priority.P2
  estimate := Estimate.M
  labels := []
  components := []
  analytics := { events := [] }
  qa := { testCases := [] }

def blankEpic : Epic where
  epicId := []
  title := []
  outcome := []
  tickets := []
  edgeCases := []

def mkPlan (es : List Epic) (ts : List Ticket) : PlanCore where
  meta :=
    { productName := []
      platform := Platform.web
      confidence := 70
      assumptions := []
      openQuestions := [] }
  summary :=
    { problem := []
      targetUsers := []
      goals := []
      nonGoals := []
      successMetrics := [] }
  epics := es
  tickets := ts

/- ## Claim theorems: the repair pass -/

theorem normalizeIds_epics_length (p : PlanCore) :
    (normalizeIds p).epics.length = p.epics.length := by
  rw [normalizeIds_unfold]
  simp [repairEpics_length]

theorem normalizeIds_tickets_length (p : PlanCore) :
    (normalizeIds p).tickets.length = p.tickets.length := by
  rw [normalizeIds_unfold]
  simp [repairTickets_length]

theorem normalizeIds_epicId_at (p : PlanCore) (i : Nat) (hi : i < p.epics.length)
    (hi2 : i < (normalizeIds p).epics.length) :
    ((normalizeIds p).epics[i]).epicId =
      if trimChars (p.epics[i]).epicId ≠ [] then trimChars (p.epics[i]).epicId
      else 'E' :: natToChars (i + 1) := by
  have hlen : i < (repairEpics 0 p.epics).length := by
    rw [repairEpics_length]; exact hi
  revert hi2
  rw [normalizeIds_unfold]
  dsimp only
  intro hi2
  rw [List.getElem_map, repairEpics_getElem p.epics 0 i hi hlen]
  simp only [repairEpic, Nat.zero_add]

theorem normalizeIds_ticketId_at (p : PlanCore) (i : Nat) (hi : i < p.tickets.length)
    (hi2 : i < (normalizeIds p).tickets.length) :
    ((normalizeIds p).tickets[i]).ticketId =
      if trimChars (p.tickets[i]).ticketId ≠ [] then trimChars (p.tickets[i]).ticketId
      else 'T' :: natToChars (i + 1) := by
  have hlen : i < (repairTickets (fallbackEpicId (repairEpics 0 p.epics))
      ((repairEpics 0 p.epics).map Epic.epicId) 0 p.tickets).length := by
    rw [repairTickets_length]; exact hi
  revert hi2
  rw [normalizeIds_unfold]
  dsimp only
  intro hi2
  rw [repairTickets_getElem p.tickets _ _ 0 i hi hlen]
  simp only [repairTicket, Nat.zero_add]

/-- C2: `normalizeIds` assigns each epic, in order, its trimmed id or
`"E" ++ (1-based index)`; each ticket its trimmed id or `"T" ++ index`;
each ticket's `epicId` becomes its trimmed value when that value is in the
repaired epic-id set and otherwise the first epic's repaired id (the
literal `"E1"` when there are no epics); hence with at least one epic,
every repaired ticket's `epicId` is in the repaired epic-id set. -/
theorem claim2_id_assignment (p : PlanCore) :
    ((normalizeIds p).epics.length = p.epics.length ∧
     (normalizeIds p).tickets.length = p.tickets.length) ∧
    (∀ i (hi : i < p.epics.length) (hi2 : i < (normalizeIds p).epics.length),
      ((normalizeIds p).epics[i]).epicId =
        if trimChars (p.epics[i]).epicId ≠ [] then trimChars (p.epics[i]).epicId
        else 'E' :: natToChars (i + 1)) ∧
    (∀ i (hi : i < p.tickets.length) (hi2 : i < (normalizeIds p).tickets.length),
      ((normalizeIds p).tickets[i]).ticketId =
        if trimChars (p.tickets[i]).ticketId ≠ [] then trimChars (p.tickets[i]).ticketId
        else 'T' :: natToChars (i + 1)) ∧
    (∀ i (hi : i < p.tickets.length) (hi2 : i < (normalizeIds p).tickets.length),
      ((normalizeIds p).tickets[i]).epicId =
        if trimChars (p.tickets[i]).epicId ∈ (normalizeIds p).epics.map Epic.epicId
        then trimChars (p.tickets[i]).epicId
        else firstRepairedEpicId (normalizeIds p).epics) ∧
    (p.epics ≠ [] → ∀ t ∈ (normalizeIds p).tickets,
      t.epicId ∈ (normalizeIds p).epics.map Epic.epicId) := by
  have hids : (normalizeIds p).epics.map Epic.epicId =
      (repairEpics 0 p.epics).map Epic.epicId := by
    rw [normalizeIds_unfold]
    exact map_epicId_settickets _ _
  have hfirst : firstRepairedEpicId (normalizeIds p).epics =
      fallbackEpicId (repairEpics 0 p.epics) := by
    rw [normalizeIds_unfold]
    rw [show ({ p with
        epics := (repairEpics 0 p.epics).map fun e =>
          { e with tickets := (lookupGroup
              (ticketsByEpic (repairTickets (fallbackEpicId (repairEpics 0 p.epics))
                ((repairEpics 0 p.epics).map Epic.epicId) 0 p.tickets)) e.epicId) },
        tickets := repairTickets (fallbackEpicId (repairEpics 0 p.epics))
          ((repairEpics 0 p.epics).map Epic.epicId) 0 p.tickets } : PlanCore).epics =
        (repairEpics 0 p.epics).map fun e =>
          { e with tickets := (lookupGroup
              (ticketsByEpic (repairTickets (fallbackEpicId (repairEpics 0 p.epics))
                ((repairEpics 0 p.epics).map Epic.epicId) 0 p.tickets)) e.epicId) } from rfl]
    rw [firstRepairedEpicId_settickets, firstRepairedEpicId_eq_fallback]
  refine ⟨⟨normalizeIds_epics_length p, normalizeIds_tickets_length p⟩,
    normalizeIds_epicId_at p, normalizeIds_ticketId_at p, ?_, ?_⟩
  · intro i hi hi2
    have hlen : i < (repairTickets (fallbackEpicId (repairEpics 0 p.epics))
        ((repairEpics 0 p.epics).map Epic.epicId) 0 p.tickets).length := by
      rw [repairTickets_length]; exact hi
    revert hi2
    rw [normalizeIds_unfold]
    dsimp only
    intro hi2
    rw [map_epicId_settickets, firstRepairedEpicId_settickets, firstRepairedEpicId_eq_fallback]
    rw [repairTickets_getElem p.tickets _ _ 0 i hi hlen]
    simp only [repairTicket]
    by_cases htr : trimChars (p.tickets[i]).epicId = []
    · rw [htr]
      simp only [ne_eq, not_true_eq_false, if_false]
      have hnm : ([] : Str) ∉ (repairEpics 0 p.epics).map Epic.epicId :=
        nil_not_mem_repairedIds p.epics
      rw [if_neg hnm]
      by_cases hfb : fallbackEpicId (repairEpics 0 p.epics) ∈
          (repairEpics 0 p.epics).map Epic.epicId
      · rw [if_pos hfb]
      · rw [if_neg hfb]
    · rw [if_pos htr]
  · intro hne t ht
    have ht2 : t ∈ repairTickets (fallbackEpicId (repairEpics 0 p.epics))
        ((repairEpics 0 p.epics).map Epic.epicId) 0 p.tickets := ht
    have hprops := mem_repairTickets (fallbackEpicId_props p.epics) ht2
    rw [hids]
    rcases hprops.2.2 with hin | hfb
    · exact hin
    · rw [hfb]
      exact fallbackEpicId_mem hne

/-- C2 witness: a two-epic, one-ticket plan with a dangling reference
`"E9"`; the repaired ticket's epic id lands in the repaired epic-id set. -/
theorem claim2_id_assignment_witness :
    (mkPlan [blankEpic, blankEpic] [{ blankTicket with epicId := ['E', '9'] }]).epics ≠ [] ∧
    ∀ t ∈ (normalizeIds (mkPlan [blankEpic, blankEpic]
        [{ blankTicket with epicId := ['E', '9'] }])).tickets,
      t.epicId ∈ (normalizeIds (mkPlan [blankEpic, blankEpic]
        [{ blankTicket with epicId := ['E', '9'] }])).epics.map Epic.epicId :=
  ⟨by decide,
    (claim2_id_assignment (mkPlan [blankEpic, blankEpic]
      [{ blankTicket with epicId := ['E', '9'] }])).2.2.2.2 (by decide)⟩

/-- C3: every repaired epic's `tickets` list is recomputed as exactly the
ticket ids, in ticket order, whose repaired `epicId` equals that epic's
id; an epic with no matching tickets gets `[]`. -/
theorem claim3_epic_tickets_recomputed (p : PlanCore) :
    (∀ e ∈ (normalizeIds p).epics,
      e.tickets = ((normalizeIds p).tickets.filter
        (fun t => t.epicId = e.epicId)).map Ticket.ticketId) ∧
    (∀ e ∈ (normalizeIds p).epics,
      (∀ t ∈ (normalizeIds p).tickets, t.epicId ≠ e.epicId) → e.tickets = []) := by
  have hmain : ∀ e ∈ (normalizeIds p).epics,
      e.tickets = ((normalizeIds p).tickets.filter
        (fun t => t.epicId = e.epicId)).map Ticket.ticketId := by
    intro e he
    have he2 : e ∈ (repairEpics 0 p.epics).map fun x =>
        { x with tickets := (lookupGroup
            (ticketsByEpic (repairTickets (fallbackEpicId (repairEpics 0 p.epics))
              ((repairEpics 0 p.epics).map Epic.epicId) 0 p.tickets)) x.epicId) } := he
    rcases List.mem_map.mp he2 with ⟨x, _, rfl⟩
    show lookupGroup (ticketsByEpic _) x.epicId = _
    rw [lookupGroup_ticketsByEpic]
    rfl
  refine ⟨hmain, fun e he hnone => ?_⟩
  rw [hmain e he]
  rw [List.filter_eq_nil_iff.mpr (by simpa using hnone)]
  rfl

/-- C3 witness: in a one-epic one-ticket blank plan, the repaired epic
carries exactly the one matching repaired ticket id. -/
theorem claim3_epic_tickets_recomputed_witness :
    ({ blankEpic with epicId := ['E', '1'], tickets := [['T', '1']] } : Epic).tickets =
      ((normalizeIds (mkPlan [blankEpic] [blankTicket])).tickets.filter
        (fun t => t.epicId =
          ({ blankEpic with epicId := ['E', '1'], tickets := [['T', '1']] } : Epic).epicId)).map
        Ticket.ticketId :=
  (claim3_epic_tickets_recomputed (mkPlan [blankEpic] [blankTicket])).1
    { blankEpic with epicId := ['E', '1'], tickets := [['T', '1']] } (by decide)

theorem normalizeIds_epics_eq (p : PlanCore) :
    (normalizeIds p).epics = (repairEpics 0 p.epics).map fun e =>
      { e with tickets := (lookupGroup
          (ticketsByEpic (repairTickets (fallbackEpicId (repairEpics 0 p.epics))
            ((repairEpics 0 p.epics).map Epic.epicId) 0 p.tickets)) e.epicId) } := rfl

theorem normalizeIds_tickets_eq (p : PlanCore) :
    (normalizeIds p).tickets = repairTickets (fallbackEpicId (repairEpics 0 p.epics))
      ((repairEpics 0 p.epics).map Epic.epicId) 0 p.tickets := rfl

/-- C4 counterexample: two epics whose raw ids are both `"A"` keep both ids
through `normalizeIds`, so repaired epic ids are not pairwise distinct. -/
theorem claim4_counterexample :
    ((normalizeIds (mkPlan [{ blankEpic with epicId := ['A'] },
        { blankEpic with epicId := ['A'] }] [])).epics.map Epic.epicId =
      [['A'], ['A']]) ∧
    ¬ ((normalizeIds (mkPlan [{ blankEpic with epicId := ['A'] },
        { blankEpic with epicId := ['A'] }] [])).epics.map Epic.epicId).Nodup := by
  constructor
  · decide
  · decide

/-- C4 amended: `normalizeIds` does not deduplicate caller-supplied ids;
uniqueness holds in the documented `"E"`/`"T"` + 1-based-index numbering
case, i.e. when every raw id trims to empty, and then the id lists are
exactly the numbered sequences, which are pairwise distinct. -/
theorem claim4_amended (p : PlanCore)
    (he : ∀ e ∈ p.epics, trimChars e.epicId = [])
    (ht : ∀ t ∈ p.tickets, trimChars t.ticketId = []) :
    ((normalizeIds p).epics.map Epic.epicId =
      (List.range p.epics.length).map (fun i => 'E' :: natToChars (i + 1))) ∧
    ((normalizeIds p).tickets.map Ticket.ticketId =
      (List.range p.tickets.length).map (fun i => 'T' :: natToChars (i + 1))) ∧
    ((normalizeIds p).epics.map Epic.epicId).Nodup ∧
    ((normalizeIds p).tickets.map Ticket.ticketId).Nodup := by
  have hE : (normalizeIds p).epics.map Epic.epicId =
      (List.range p.epics.length).map (fun i => 'E' :: natToChars (i + 1)) := by
    apply List.ext_getElem
    · simp [normalizeIds_epics_length]
    · intro i h1 h2
      have hi : i < p.epics.length := by
        simpa [normalizeIds_epics_length] using h1
      rw [List.getElem_map, List.getElem_map, List.getElem_range]
      rw [normalizeIds_epicId_at p i hi (by simpa [normalizeIds_epics_length] using hi)]
      rw [he _ (List.getElem_mem _)]
      simp
  have hT : (normalizeIds p).tickets.map Ticket.ticketId =
      (List.range p.tickets.length).map (fun i => 'T' :: natToChars (i + 1)) := by
    apply List.ext_getElem
    · simp [normalizeIds_tickets_length]
    · intro i h1 h2
      have hi : i < p.tickets.length := by
        simpa [normalizeIds_tickets_length] using h1
      rw [List.getElem_map, List.getElem_map, List.getElem_range]
      rw [normalizeIds_ticketId_at p i hi (by simpa [normalizeIds_tickets_length] using hi)]
      rw [ht _ (List.getElem_mem _)]
      simp
  refine ⟨hE, hT, ?_, ?_⟩
  · rw [hE]
    refine List.Nodup.map ?_ (List.nodup_range _)
    intro a b hab
    simp only [List.cons.injEq, true_and] at hab
    have := natToChars_inj (Nat.succ_ne_zero a) (Nat.succ_ne_zero b) hab
    omega
  · rw [hT]
    refine List.Nodup.map ?_ (List.nodup_range _)
    intro a b hab
    simp only [List.cons.injEq, true_and] at hab
    have := natToChars_inj (Nat.succ_ne_zero a) (Nat.succ_ne_zero b) hab
    omega

/-- C4 witness: with all ids blank, the numbered repaired ids are unique. -/
theorem claim4_amended_witness :
    ((normalizeIds (mkPlan [blankEpic, blankEpic]
        [blankTicket, blankTicket])).epics.map Epic.epicId).Nodup ∧
    ((normalizeIds (mkPlan [blankEpic, blankEpic]
        [blankTicket, blankTicket])).tickets.map Ticket.ticketId).Nodup :=
  ⟨(claim4_amended (mkPlan [blankEpic, blankEpic] [blankTicket, blankTicket])
      (by decide) (by decide)).2.2.1,
   (claim4_amended (mkPlan [blankEpic, blankEpic] [blankTicket, blankTicket])
      (by decide) (by decide)).2.2.2⟩

/-- C5: the repair pass is idempotent: repairing an already-repaired plan
yields an identical plan. Determinism and freedom from input mutation are
inherent to the pure functional embedding of `normalizeIds`. -/
theorem claim5_normalizeIds_idempotent (p : PlanCore) :
    normalizeIds (normalizeIds p) = normalizeIds p := by
  have hfbp := fallbackEpicId_props p.epics
  have hEprops : ∀ e ∈ (normalizeIds p).epics,
      trimChars e.epicId = e.epicId ∧ e.epicId ≠ [] := by
    intro e he
    rw [normalizeIds_epics_eq] at he
    rcases List.mem_map.mp he with ⟨x, hx, rfl⟩
    have hx2 := mem_repairEpics hx
    exact hx2
  have h1 : repairEpics 0 (normalizeIds p).epics = (normalizeIds p).epics :=
    repairEpics_eq_self 0 _ hEprops
  have h2 : (normalizeIds p).epics.map Epic.epicId =
      (repairEpics 0 p.epics).map Epic.epicId := by
    rw [normalizeIds_epics_eq]
    exact map_epicId_settickets _ _
  have h3 : fallbackEpicId ((normalizeIds p).epics) =
      fallbackEpicId (repairEpics 0 p.epics) := by
    rw [normalizeIds_epics_eq]
    exact fallbackEpicId_settickets _ _
  have hTprops : ∀ t ∈ (normalizeIds p).tickets,
      (trimChars t.ticketId = t.ticketId ∧ t.ticketId ≠ []) ∧
      (trimChars t.epicId = t.epicId ∧ t.epicId ≠ []) ∧
      (t.epicId ∈ (repairEpics 0 p.epics).map Epic.epicId ∨
        t.epicId = fallbackEpicId (repairEpics 0 p.epics)) := by
    intro t ht
    have ht2 : t ∈ repairTickets (fallbackEpicId (repairEpics 0 p.epics))
        ((repairEpics 0 p.epics).map Epic.epicId) 0 p.tickets := ht
    exact mem_repairTickets hfbp ht2
  have h4 : repairTickets (fallbackEpicId (repairEpics 0 p.epics))
      ((repairEpics 0 p.epics).map Epic.epicId) 0 (normalizeIds p).tickets =
      (normalizeIds p).tickets :=
    repairTickets_eq_self 0 _ hTprops
  have h5 : (normalizeIds p).epics.map (fun e =>
      { e with tickets := (lookupGroup (ticketsByEpic (normalizeIds p).tickets) e.epicId) }) =
      (normalizeIds p).epics := by
    rw [normalizeIds_tickets_eq, normalizeIds_epics_eq, List.map_map]
    exact List.map_congr_left (fun e _ => rfl)
  rw [normalizeIds_unfold (normalizeIds p), h1, h3, h2, h4, h5]

/- ## JSON values and the Zod lenient decode (src/lib/schema.ts)

JSON numbers are modelled as integers; the fractional part plays no role in
the schema (only `confidence` is numeric, range-checked against 0 and 100). -/

inductive Json
  | null
  | bool (b : Bool)
  | num (n : Int)
  | str (s : Str)
  | arr (elems : List Json)
  | obj (fields : List (Str × Json))

/-- `z.string()` on a possibly missing field (`none` models `undefined`). -/
def decStr : Option Json → Option Str
  | some (Json.str s) => some s
  | _ => none

/-- `zStr = z.string().catch("")`. -/
def zStr (j : Option Json) : Str := (decStr j).getD []

def decStrElem : Json → Option Str
  | Json.str s => some s
  | _ => none

/-- `z.array(z.string())`: fails when the value is not an array or any
element is not a string. -/
def decStrList : Option Json → Option (List Str)
  | some (Json.arr xs) => xs.mapM decStrElem
  | _ => none

/-- `zStrArr = z.array(z.string()).catch([])`. -/
def zStrArr (j : Option Json) : List Str := (decStrList j).getD []

/-- `PlatformEnum = z.enum(["web","mobile","api","other"]).catch("web")`. -/
def zPlatform (j : Option Json) : Platform :=
  (match j with
    | some (Json.str s) =>
      if s = "web".toList then some Platform.web
      else if s = "mobile".toList then some Platform.mobile
      else if s = "api".toList then some Platform.api
      else if s = "other".toList then some Platform.other
      else none
    | _ => none).getD Platform.web

/-- `TicketTypeEnum = z.enum(["story","task","bug","spike"]).catch("task")`. -/
def zTicketType (j : Option Json) : TicketType :=
  (match j with
    | some (Json.str s) =>
      if s = "story".toList then some TicketType.story
      else if s = "task".toList then some TicketType.task
      else if s = "bug".toList then some TicketType.bug
      else if s = "spike".toList then some TicketType.spike
      else none
    | _ => none).getD TicketType.task

/-- `PriorityEnum = z.enum(["P0","P1","P2","P3"]).catch("P2")` (the ticket
field adds a second, redundant `.catch("P2")`). -/
def zPriority (j : Option Json) : Priority :=
  (match j with
    | some (Json.str s) =>
      if s = "P0".toList then some Priority.P0
      else if s = "P1".toList then some Priority.P1
      else if s = "P2".toList then some Priority.P2
      else if s = "P3".toList then some Priority.P3
      else none
    | _ => none).getD Priority.P2

/-- `EstimateEnum = z.enum(["S","M","L"]).catch("M")` (plus the redundant
ticket-level `.catch("M")`). -/
def zEstimate (j : Option Json) : Estimate :=
  (match j with
    | some (Json.str s) =>
      if s = "S".toList then some Estimate.S
      else if s = "M".toList then some Estimate.M
      else if s = "L".toList then some Estimate.L
      else none
    | _ => none).getD Estimate.M

/-- `z.number().min(0).max(100)`. -/
def decConfidence : Option Json → Option Int
  | some (Json.num n) => if 0 ≤ n ∧ n ≤ 100 then some n else none
  | _ => none

/-- `confidence: z.number().min(0).max(100).catch(70)`. -/
def zConfidence (j : Option Json) : Int := (decConfidence j).getD 70

/-- `AnalyticsEventSchema` (no catch at the object level). -/
def decAnalyticsEvent : Json → Option AnalyticsEvent
  | Json.obj fs => some
      { name := zStr (fs.lookup "name".toList)
        properties := zStrArr (fs.lookup "properties".toList) }
  | _ => none

/-- `events: z.array(AnalyticsEventSchema).catch([])`. -/
def zEvents (j : Option Json) : List AnalyticsEvent :=
  (match j with
    | some (Json.arr xs) => xs.mapM decAnalyticsEvent
    | _ => none).getD []

/-- `TicketAnalyticsSchema = z.object({events: ...}).catch({events: []})`. -/
def zTicketAnalytics (j : Option Json) : TicketAnalytics :=
  match j with
  | some (Json.obj fs) => { events := zEvents (fs.lookup "events".toList) }
  | _ => { events := [] }

/-- `TicketQASchema = z.object({testCases: zStrArr}).catch({testCases: []})`. -/
def zTicketQA (j : Option Json) : TicketQA :=
  match j with
  | some (Json.obj fs) => { testCases := zStrArr (fs.lookup "testCases".toList) }
  | _ => { testCases := [] }

/-- `TicketSchema` (no catch at the object level; note
`epicId: z.string().catch("E1")`). -/
def decTicket : Json → Option Ticket
  | Json.obj fs => some
      { ticketId := zStr (fs.lookup "ticketId".toList)
        epicId := (decStr (fs.lookup "epicId".toList)).getD "E1".toList
        type := zTicketType (fs.lookup "type".toList)
        title := zStr (fs.lookup "title".toList)
        userStory := zStr (fs.lookup "userStory".toList)
        description := zStr (fs.lookup "description".toList)
        acceptanceCriteria := zStrArr (fs.lookup "acceptanceCriteria".toList)
        outOfScope := zStrArr (fs.lookup "outOfScope".toList)
        dependencies := zStrArr (fs.lookup "dependencies".toList)
        priority := zPriority (fs.lookup "priority".toList)
        estimate := zEstimate (fs.lookup "estimate".toList)
        labels := zStrArr (fs.lookup "labels".toList)
        components := zStrArr (fs.lookup "components".toList)
        analytics := zTicketAnalytics (fs.lookup "analytics".toList)
        qa := zTicketQA (fs.lookup "qa".toList) }
  | _ => none

/-- `EpicSchema` (no catch at the object level). -/
def decEpic : Json → Option Epic
  | Json.obj fs => some
      { epicId := zStr (fs.lookup "epicId".toList)
        title := zStr (fs.lookup "title".toList)
        outcome := zStr (fs.lookup "outcome".toList)
        tickets := zStrArr (fs.lookup "tickets".toList)
        edgeCases := zStrArr (fs.lookup "edgeCases".toList) }
  | _ => none

/-- `epics: z.array(EpicSchema).catch([])`. -/
def zEpics (j : Option Json) : List Epic :=
  (match j with
    | some (Json.arr xs) => xs.mapM decEpic
    | _ => none).getD []

/-- `tickets: z.array(TicketSchema).catch([])`. -/
def zTickets (j : Option Json) : List Ticket :=
  (match j with
    | some (Json.arr xs) => xs.mapM decTicket
    | _ => none).getD []

/-- The `meta` object of `PlanCoreSchema` (no catch on the object itself,
so the whole decode fails when `meta` is missing or not an object). -/
def decMeta : Json → Option Meta
  | Json.obj fs => some
      { productName := zStr (fs.lookup "productName".toList)
        platform := zPlatform (fs.lookup "platform".toList)
        confidence := zConfidence (fs.lookup "confidence".toList)
        assumptions := zStrArr (fs.lookup "assumptions".toList)
        openQuestions := zStrArr (fs.lookup "openQuestions".toList) }
  | _ => none

/-- The `summary` object of `PlanCoreSchema` (no catch on the object). -/
def decSummary : Json → Option Summary
  | Json.obj fs => some
      { problem := zStr (fs.lookup "problem".toList)
        targetUsers := zStrArr (fs.lookup "targetUsers".toList)
        goals := zStrArr (fs.lookup "goals".toList)
        nonGoals := zStrArr (fs.lookup "nonGoals".toList)
        successMetrics := zStrArr (fs.lookup "successMetrics".toList) }
  | _ => none

/-- `PlanCoreSchema.parse` on an untrusted candidate value: `none` models a
thrown `ZodError`. -/
def decodePlanCore : Json → Option PlanCore
  | Json.obj fs =>
    ((fs.lookup "meta".toList).bind decMeta).bind fun meta =>
      ((fs.lookup "summary".toList).bind decSummary).bind fun summary =>
        some
          { meta := meta
            summary := summary
            epics := zEpics (fs.lookup "epics".toList)
            tickets := zTickets (fs.lookup "tickets".toList) }
  | _ => none

/- ## Claim theorems: the schema coercion layer -/

/-- C1 counterexample: lenient decoding is not total — `meta` and `summary`
carry no `.catch`, so decoding the object `\x7b\x7d` throws; and a ticket
with a missing `epicId` decodes to `"E1"`, not to the empty string. -/
theorem claim1_counterexample :
    decodePlanCore (Json.obj []) = none ∧
    (decodePlanCore (Json.obj
        [("meta".toList, Json.obj []), ("summary".toList, Json.obj []),
         ("tickets".toList, Json.arr [Json.obj []])])).map
      (fun p => p.tickets.map Ticket.epicId) = some [['E', '1']] := by
  exact ⟨rfl, rfl⟩

/-- C1 amended: for every candidate that is a JSON object whose `meta` and
`summary` fields are present and are themselves objects, lenient decoding
succeeds without throwing and substitutes the documented defaults for every
missing or wrong-typed leaf (empty string, empty list, structural default
for nested records, `web`/`task`/`P2`/`M` for the enumerations), except
that a ticket's `epicId` defaults to `"E1"` rather than the empty string;
a candidate that is not an object, or whose `meta` or `summary` is missing
or not an object, fails to decode. -/
theorem claim1_amended (fs : List (Str × Json)) (m s : Json)
    (hm : fs.lookup "meta".toList = some m) (hmo : ∃ mf, m = Json.obj mf)
    (hs : fs.lookup "summary".toList = some s) (hso : ∃ sf, s = Json.obj sf) :
    (decodePlanCore (Json.obj fs)).isSome ∧
    decodePlanCore (Json.obj
        [("meta".toList, Json.obj []), ("summary".toList, Json.obj []),
         ("epics".toList, Json.arr [Json.obj []]),
         ("tickets".toList, Json.arr [Json.obj []])]) =
      some
        { meta :=
            { productName := []
              platform := Platform.web
              confidence := 70
              assumptions := []
              openQuestions := [] }
          summary :=
            { problem := []
              targetUsers := []
              goals := []
              nonGoals := []
              successMetrics := [] }
          epics := [{ epicId := [], title := [], outcome := [], tickets := [], edgeCases := [] }]
          tickets := [{ blankTicket with epicId := ['E', '1'] }] } := by
  constructor
  · rcases hmo with ⟨mf, rfl⟩
    rcases hso with ⟨sf, rfl⟩
    have hv : decodePlanCore (Json.obj fs) =
        ((fs.lookup "meta".toList).bind decMeta).bind fun meta =>
          ((fs.lookup "summary".toList).bind decSummary).bind fun summary =>
            some
              { meta := meta
                summary := summary
                epics := zEpics (fs.lookup "epics".toList)
                tickets := zTickets (fs.lookup "tickets".toList) } := rfl
    rw [hv, hm, hs]
    rfl
  · rfl

/-- C1 witness: a candidate with empty-object `meta` and `summary` decodes
successfully. -/
theorem claim1_amended_witness :
    (decodePlanCore (Json.obj
      [("meta".toList, Json.obj []), ("summary".toList, Json.obj [])])).isSome :=
  (claim1_amended [("meta".toList, Json.obj []), ("summary".toList, Json.obj [])]
    (Json.obj []) (Json.obj []) rfl ⟨[], rfl⟩ rfl ⟨[], rfl⟩).1

/-- C10: a `meta.confidence` that is missing, not a number, or a number
outside the range 0 to 100 decodes to the fallback 70 (JSON numbers are
modelled as integers; only the 0/100 range check is relevant here). -/
theorem claim10_confidence_default (j : Option Json)
    (h : j = none ∨ (∃ v, j = some v ∧ ∀ n : Int, v ≠ Json.num n) ∨
      (∃ n : Int, j = some (Json.num n) ∧ (n < 0 ∨ 100 < n))) :
    zConfidence j = 70 ∧
    ∀ mf : List (Str × Json), mf.lookup "confidence".toList = j →
      (decMeta (Json.obj mf)).map Meta.confidence = some 70 := by
  have hz : zConfidence j = 70 := by
    rcases h with rfl | ⟨v, rfl, hv⟩ | ⟨n, rfl, hn⟩
    · rfl
    · cases v with
      | num n => exact absurd rfl (hv n)
      | null => rfl
      | bool b => rfl
      | str s => rfl
      | arr xs => rfl
      | obj fields => rfl
    · have hd : decConfidence (some (Json.num n)) =
          if 0 ≤ n ∧ n ≤ 100 then some n else none := rfl
      show (decConfidence (some (Json.num n))).getD 70 = 70
      rw [hd, if_neg (by omega)]
      rfl
  refine ⟨hz, fun mf hmf => ?_⟩
  show some (zConfidence (mf.lookup "confidence".toList)) = some 70
  rw [hmf, hz]

/-- C10 witness: an object with no `confidence` key decodes to 70. -/
theorem claim10_confidence_default_witness :
    zConfidence none = 70 ∧
    (decMeta (Json.obj [])).map Meta.confidence = some 70 :=
  ⟨(claim10_confidence_default none (Or.inl rfl)).1,
   (claim10_confidence_default none (Or.inl rfl)).2 [] rfl⟩

/- ## Issue-link builder (src/lib/linear.ts) -/

def ticketTypeStr : TicketType → Str
  | TicketType.story => "story".toList
  | TicketType.task => "task".toList
  | TicketType.bug => "bug".toList
  | TicketType.spike => "spike".toList

def priorityStr : Priority → Str
  | Priority.P0 => "P0".toList
  | Priority.P1 => "P1".toList
  | Priority.P2 => "P2".toList
  | Priority.P3 => "P3".toList

def estimateStr : Estimate → Str
  | Estimate.S => "S".toList
  | Estimate.M => "M".toList
  | Estimate.L => "L".toList

def platformStr : Platform → Str
  | Platform.web => "web".toList
  | Platform.mobile => "mobile".toList
  | Platform.api => "api".toList
  | Platform.other => "other".toList

/-- The characters `encodeURIComponent` leaves unescaped:
`A-Z a-z 0-9 - _ . ! ~ * ' ( )`. -/
def isUriUnreserved (c : Char) : Bool :=
  ('A' ≤ c && c ≤ 'Z') || ('a' ≤ c && c ≤ 'z') || ('0' ≤ c && c ≤ '9') ||
  c = '-' || c = '_' || c = '.' || c = '!' || c = '~' || c = '*' ||
  c = '\'' || c = '(' || c = ')'

/-- UTF-8 encoding of a unicode code point, as the byte list
`encodeURIComponent` percent-encodes. -/
def utf8Bytes (n : Nat) : List Nat :=
  if n < 128 then [n]
  else if n < 2048 then [192 + n / 64, 128 + n % 64]
  else if n < 65536 then [224 + n / 4096, 128 + (n / 64) % 64, 128 + n % 64]
  else [240 + n / 262144, 128 + (n / 4096) % 64, 128 + (n / 64) % 64, 128 + n % 64]

/-- Uppercase hexadecimal digit, as emitted by `encodeURIComponent`. -/
def hexUpper : Nat → Char
  | 0 => '0' | 1 => '1' | 2 => '2' | 3 => '3' | 4 => '4' | 5 => '5' | 6 => '6'
  | 7 => '7' | 8 => '8' | 9 => '9' | 10 => 'A' | 11 => 'B' | 12 => 'C' | 13 => 'D'
  | 14 => 'E' | _ => 'F'

def pctEncodeByte (b : Nat) : List Char := ['%', hexUpper (b / 16), hexUpper (b % 16)]

/-- JS `encodeURIComponent` over our string model. -/
def encodeURIComponent (s : Str) : Str :=
  s.flatMap fun c =>
    if isUriUnreserved c then [c] else (utf8Bytes c.toNat).flatMap pctEncodeByte

/-- `.replace(/%20/g, "+")`: left-to-right, non-overlapping scan. -/
def replacePct20 : Str → Str
  | [] => []
  | [c] => [c]
  | [c, d] => [c, d]
  | c :: d :: e :: rest =>
    if c = '%' ∧ d = '2' ∧ e = '0' then '+' :: replacePct20 rest
    else c :: replacePct20 (d :: e :: rest)

/-- `encodeForQuery` from src/lib/linear.ts. -/
def encodeForQuery (value : Str) : Str := replacePct20 (encodeURIComponent value)

/-- `buildLinearNewUrl` from src/lib/linear.ts. -/
def buildLinearNewUrl (title description : Str) : Str :=
  "https://linear.new?title=".toList ++ encodeForQuery title ++
    "&description=".toList ++ encodeForQuery description

/-- `ticketMarkdownDescription` from src/lib/linear.ts: the plain-text body
placed in the `description` query parameter. -/
def ticketMarkdownDescription (t : Ticket) : Str :=
  let lines : List Str :=
    ["Type: ".toList ++ ticketTypeStr t.type,
     "Priority: ".toList ++ priorityStr t.priority,
     "Estimate: ".toList ++ estimateStr t.estimate,
     [],
     "User story: ".toList ++ t.userStory,
     [],
     t.description,
     [],
     "Acceptance criteria:".toList] ++
    t.acceptanceCriteria.map (fun ac => "- ".toList ++ ac) ++
    (if t.outOfScope ≠ [] then
      [[], "Out of scope:".toList] ++ t.outOfScope.map (fun os => "- ".toList ++ os)
     else []) ++
    (if t.dependencies ≠ [] then
      [[], "Dependencies:".toList] ++ t.dependencies.map (fun dep => "- ".toList ++ dep)
     else []) ++
    [[], "QA test cases:".toList] ++ t.qa.testCases.map (fun tc => "- ".toList ++ tc) ++
    [[], "Analytics:".toList] ++
    t.analytics.events.map (fun ev =>
      "- ".toList ++ ev.name ++ " (".toList ++
        List.intercalate ", ".toList ev.properties ++ ")".toList)
  List.intercalate ['\n'] lines

structure LinearLink where
  ticketId : Str
  linearNewUrl : Str
deriving DecidableEq, Repr

/-- `buildLinearLinks` from src/lib/linear.ts. -/
def buildLinearLinks (tickets : List Ticket) : List LinearLink :=
  tickets.map fun t =>
    { ticketId := t.ticketId
      linearNewUrl := buildLinearNewUrl t.title (ticketMarkdownDescription t) }

/- ## Lemmas: percent-encoding and the space-to-plus replacement -/

theorem hexUpper_eq_two {x : Nat} (h : hexUpper x = '2') : x = 2 := by
  revert h
  unfold hexUpper
  split <;> intro h <;> first | rfl | exact absurd h (by decide)

theorem hexUpper_eq_zero {x : Nat} (h : hexUpper x = '0') : x = 0 := by
  revert h
  unfold hexUpper
  split <;> intro h <;> first | rfl | exact absurd h (by decide)

theorem hexUpper_ne_pct (x : Nat) : hexUpper x ≠ '%' := by
  unfold hexUpper
  split <;> decide

theorem replacePct20_cons_ne : ∀ (c : Char) (t : Str), c ≠ '%' →
    replacePct20 (c :: t) = c :: replacePct20 t
  | _, [], _ => rfl
  | _, [_], _ => rfl
  | c, d :: e :: r, h => by
    show (if c = '%' ∧ d = '2' ∧ e = '0' then '+' :: replacePct20 r
          else c :: replacePct20 (d :: e :: r)) = c :: replacePct20 (d :: e :: r)
    rw [if_neg (fun hc => h hc.1)]

theorem replacePct20_pct (b : Nat) (t : Str) (hb : b ≠ 32) :
    replacePct20 (pctEncodeByte b ++ t) = pctEncodeByte b ++ replacePct20 t := by
  show (if '%' = '%' ∧ hexUpper (b / 16) = '2' ∧ hexUpper (b % 16) = '0'
        then '+' :: replacePct20 t
        else '%' :: replacePct20 (hexUpper (b / 16) :: hexUpper (b % 16) :: t)) = _
  rw [if_neg (by
    rintro ⟨-, h2, h0⟩
    have ha := hexUpper_eq_two h2
    have hc := hexUpper_eq_zero h0
    omega)]
  rw [replacePct20_cons_ne _ _ (hexUpper_ne_pct _),
    replacePct20_cons_ne _ _ (hexUpper_ne_pct _)]
  rfl

theorem replacePct20_bytes (bs : List Nat) (t : Str) (h : ∀ b ∈ bs, b ≠ 32) :
    replacePct20 (bs.flatMap pctEncodeByte ++ t) = bs.flatMap pctEncodeByte ++ replacePct20 t := by
  induction bs with
  | nil => simp
  | cons b bs ih =>
    rw [List.flatMap_cons, List.append_assoc, replacePct20_pct b _ (h b (by simp)),
      ih (fun x hx => h x (by simp [hx])), List.append_assoc]

theorem utf8Bytes_ne_space {c : Char} (hc : c ≠ ' ') : ∀ b ∈ utf8Bytes c.toNat, b ≠ 32 := by
  intro b hb
  unfold utf8Bytes at hb
  split at hb
  · simp only [List.mem_singleton] at hb
    subst hb
    intro h32
    apply hc
    have hofn := Char.ofNat_toNat c
    rw [h32] at hofn
    exact hofn.symm
  · split at hb
    · simp only [List.mem_cons, List.mem_singleton, List.not_mem_nil, or_false] at hb
      rcases hb with hb | hb <;> omega
    · split at hb
      · simp only [List.mem_cons, List.mem_singleton, List.not_mem_nil, or_false] at hb
        rcases hb with hb | hb | hb <;> omega
      · simp only [List.mem_cons, List.mem_singleton, List.not_mem_nil, or_false] at hb
        rcases hb with hb | hb | hb | hb <;> omega

theorem replacePct20_encChar (c : Char) (t : Str) :
    replacePct20 ((if isUriUnreserved c then [c]
        else (utf8Bytes c.toNat).flatMap pctEncodeByte) ++ t) =
      (if c = ' ' then ['+']
       else if isUriUnreserved c then [c]
       else (utf8Bytes c.toNat).flatMap pctEncodeByte) ++ replacePct20 t := by
  by_cases hsp : c = ' '
  · subst hsp
    rw [if_pos rfl]
    show replacePct20 ('%' :: '2' :: '0' :: t) = '+' :: replacePct20 t
    rfl
  · rw [if_neg hsp]
    by_cases hu : isUriUnreserved c
    · rw [if_pos hu]
      apply replacePct20_cons_ne
      intro hcp
      subst hcp
      exact absurd hu (by decide)
    · rw [if_neg hu]
      exact replacePct20_bytes _ _ (utf8Bytes_ne_space hsp)

/-- C7: the issue-link builder yields exactly one `{ticketId, linearNewUrl}`
pair per ticket, in ticket order; each URL is the fixed `linear.new`
endpoint with `title` and `description` query parameters URL-component
encoded, with every space character rendered as `'+'`. -/
theorem claim7_linear_links (ts : List Ticket) :
    (buildLinearLinks ts).length = ts.length ∧
    (∀ i (hi : i < ts.length) (hi2 : i < (buildLinearLinks ts).length),
      (buildLinearLinks ts)[i] =
        { ticketId := (ts[i]).ticketId
          linearNewUrl := "https://linear.new?title=".toList ++
            encodeForQuery (ts[i]).title ++ "&description=".toList ++
            encodeForQuery (ticketMarkdownDescription ts[i]) }) ∧
    (∀ s : Str, encodeForQuery s = s.flatMap fun c =>
      if c = ' ' then ['+']
      else if isUriUnreserved c then [c]
      else (utf8Bytes c.toNat).flatMap pctEncodeByte) := by
  refine ⟨by simp [buildLinearLinks], ?_, ?_⟩
  · intro i hi hi2
    unfold buildLinearLinks
    rw [List.getElem_map]
    exact rfl
  · intro s
    unfold encodeForQuery
    induction s with
    | nil => rfl
    | cons c s ih =>
      rw [show encodeURIComponent (c :: s) =
          (if isUriUnreserved c then [c] else (utf8Bytes c.toNat).flatMap pctEncodeByte) ++
            encodeURIComponent s from by simp [encodeURIComponent]]
      rw [replacePct20_encChar, ih, List.flatMap_cons]

/-- C7 witness: the one-element case, with the pair and URL shape at
index 0. -/
theorem claim7_linear_links_witness :
    (buildLinearLinks [blankTicket]).length = [blankTicket].length ∧
    (buildLinearLinks [blankTicket])[0] =
      { ticketId := blankTicket.ticketId
        linearNewUrl := "https://linear.new?title=".toList ++
          encodeForQuery blankTicket.title ++ "&description=".toList ++
          encodeForQuery (ticketMarkdownDescription blankTicket) } :=
  ⟨(claim7_linear_links [blankTicket]).1,
   (claim7_linear_links [blankTicket]).2.1 0 (by decide) (by decide)⟩

/- ## The two ticket Markdown renderers (src/app/page.tsx) -/

/-- JS `x || '- None'` on a rendered list: the empty string is falsy. -/
def jsOrNone (s : Str) : Str := if s = [] then "- None".toList else s

/-- The page-module `ticketToMarkdown` (src/app/page.tsx lines 134-168):
the ticket-card text block, with `- None` fallbacks. -/
def pageTicketToMarkdown (t : Ticket) : Str :=
  "## ".toList ++ t.ticketId ++ " - ".toList ++ t.title ++
  "\n\nType: ".toList ++ ticketTypeStr t.type ++
  " | Priority: ".toList ++ priorityStr t.priority ++
  " | Estimate: ".toList ++ estimateStr t.estimate ++
  " | Epic: ".toList ++ t.epicId ++
  "\n\nUser story:\n".toList ++ t.userStory ++
  "\n\nDescription:\n".toList ++ t.description ++
  "\n\nAcceptance criteria:\n".toList ++
  List.intercalate ['\n'] (t.acceptanceCriteria.map (fun x => "- [ ] ".toList ++ x)) ++
  "\n\nDependencies:\n".toList ++
  jsOrNone (List.intercalate ['\n'] (t.dependencies.map (fun x => "- ".toList ++ x))) ++
  "\n\nOut of scope:\n".toList ++
  jsOrNone (List.intercalate ['\n'] (t.outOfScope.map (fun x => "- ".toList ++ x))) ++
  "\n\nQA test cases:\n".toList ++
  jsOrNone (List.intercalate ['\n'] (t.qa.testCases.map (fun x => "- ".toList ++ x))) ++
  "\n\nAnalytics:\n".toList ++
  jsOrNone (List.intercalate ['\n'] (t.analytics.events.map (fun e =>
    "- ".toList ++ e.name ++ " (".toList ++
      List.intercalate ", ".toList e.properties ++ ")".toList))) ++
  "\n".toList

/-- The `parts` array of the markdown-module `ticketToMarkdown`
(src/app/page.tsx lines 1203-1239): the out-of-scope and dependencies
sections are pushed only when the lists are non-empty. -/
def mdTicketParts (t : Ticket) : List Str :=
  ["### ".toList ++ t.ticketId ++ " - ".toList ++ t.title,
   "Type: ".toList ++ ticketTypeStr t.type ++ " | Priority: ".toList ++
     priorityStr t.priority ++ " | Estimate: ".toList ++ estimateStr t.estimate,
   [],
   "User story: ".toList ++ t.userStory,
   [],
   t.description,
   [],
   "Acceptance criteria:".toList] ++
  t.acceptanceCriteria.map (fun ac => "- ".toList ++ ac) ++
  (if t.outOfScope ≠ [] then
    [[], "Out of scope:".toList] ++ t.outOfScope.map (fun os => "- ".toList ++ os)
   else []) ++
  (if t.dependencies ≠ [] then
    [[], "Dependencies:".toList] ++ t.dependencies.map (fun dep => "- ".toList ++ dep)
   else []) ++
  [[], "QA test cases:".toList] ++ t.qa.testCases.map (fun tc => "- ".toList ++ tc) ++
  [[], "Analytics events:".toList] ++
  t.analytics.events.flatMap (fun ev =>
    ("- ".toList ++ ev.name) :: ev.properties.map (fun pr => "  - ".toList ++ pr))

/-- The markdown-module `ticketToMarkdown`: `parts.join("\n")`. -/
def mdTicketToMarkdown (t : Ticket) : Str :=
  List.intercalate ['\n'] (mdTicketParts t)

set_option maxRecDepth 4096 in
/-- C8 counterexample: for a ticket with no dependencies and no
out-of-scope items, the Markdown-export renderer omits both sections
entirely — its output contains no `"None"` at all — so the claim that both
renderers emit a literal `"None"` list item fails on the export side. -/
theorem claim8_counterexample :
    blankTicket.dependencies = [] ∧ blankTicket.outOfScope = [] ∧
    ¬ ("None".toList <:+: mdTicketToMarkdown blankTicket) := by
  refine ⟨rfl, rfl, ?_⟩
  decide

/-- C8 amended: for every ticket with empty `dependencies` and empty
`outOfScope`, the ticket-card renderer emits the contiguous literal
`Dependencies:\n- None\n\nOut of scope:\n- None` block, while the
Markdown-export renderer omits both sections (its parts list is exactly
the section sequence without them). -/
theorem claim8_amended (t : Ticket)
    (h1 : t.dependencies = []) (h2 : t.outOfScope = []) :
    (∃ u v, pageTicketToMarkdown t =
      u ++ "\n\nDependencies:\n- None\n\nOut of scope:\n- None\n\nQA test cases:\n".toList ++ v) ∧
    mdTicketParts t =
      ["### ".toList ++ t.ticketId ++ " - ".toList ++ t.title,
       "Type: ".toList ++ ticketTypeStr t.type ++ " | Priority: ".toList ++
         priorityStr t.priority ++ " | Estimate: ".toList ++ estimateStr t.estimate,
       [],
       "User story: ".toList ++ t.userStory,
       [],
       t.description,
       [],
       "Acceptance criteria:".toList] ++
      t.acceptanceCriteria.map (fun ac => "- ".toList ++ ac) ++
      [[], "QA test cases:".toList] ++ t.qa.testCases.map (fun tc => "- ".toList ++ tc) ++
      [[], "Analytics events:".toList] ++
      t.analytics.events.flatMap (fun ev =>
        ("- ".toList ++ ev.name) :: ev.properties.map (fun pr => "  - ".toList ++ pr)) := by
  constructor
  · have hmid : ("\n\nDependencies:\n- None\n\nOut of scope:\n- None\n\nQA test cases:\n".toList : Str) =
        "\n\nDependencies:\n".toList ++ "- None".toList ++ "\n\nOut of scope:\n".toList ++
          "- None".toList ++ "\n\nQA test cases:\n".toList := rfl
    refine ⟨"## ".toList ++ t.ticketId ++ " - ".toList ++ t.title ++
      "\n\nType: ".toList ++ ticketTypeStr t.type ++
      " | Priority: ".toList ++ priorityStr t.priority ++
      " | Estimate: ".toList ++ estimateStr t.estimate ++
      " | Epic: ".toList ++ t.epicId ++
      "\n\nUser story:\n".toList ++ t.userStory ++
      "\n\nDescription:\n".toList ++ t.description ++
      "\n\nAcceptance criteria:\n".toList ++
      List.intercalate ['\n'] (t.acceptanceCriteria.map (fun x => "- [ ] ".toList ++ x)),
      jsOrNone (List.intercalate ['\n'] (t.qa.testCases.map (fun x => "- ".toList ++ x))) ++
      "\n\nAnalytics:\n".toList ++
      jsOrNone (List.intercalate ['\n'] (t.analytics.events.map (fun e =>
        "- ".toList ++ e.name ++ " (".toList ++
          List.intercalate ", ".toList e.properties ++ ")".toList))) ++
      "\n".toList, ?_⟩
    rw [hmid]
    unfold pageTicketToMarkdown
    rw [h1, h2]
    show _ ++ _ = _
    simp only [List.map_nil, List.append_assoc]
    rfl
  · unfold mdTicketParts
    rw [h1, h2]
    rw [if_neg (by simp), if_neg (by simp)]
    simp

/-- C8 witness: the blank ticket instantiates the amended statement. -/
theorem claim8_amended_witness :
    ∃ u v, pageTicketToMarkdown blankTicket =
      u ++ "\n\nDependencies:\n- None\n\nOut of scope:\n- None\n\nQA test cases:\n".toList ++ v :=
  (claim8_amended blankTicket rfl rfl).1

/- ## Text normalizer `cleanPrdText` (src/app/page.tsx lines 1021-1053) -/

/-- `.replace(/\r\n/g, "\n")`: left-to-right, resuming after each match. -/
def replCRLF : Str → Str
  | [] => []
  | [c] => [c]
  | a :: b :: rest =>
    if a = '\r' ∧ b = '\n' then '\n' :: replCRLF rest
    else a :: replCRLF (b :: rest)

/-- `.replace(/\r/g, "\n")`. -/
def replCR (s : Str) : Str := s.map fun c => if c = '\r' then '\n' else c

/-- The class `[​-‍﻿]`. -/
def isZeroWidth (c : Char) : Bool :=
  (0x200B ≤ c.val && c.val ≤ 0x200D) || c.val = 0xFEFF

/-- `.replace(/[​-‍﻿]/g, "")`. -/
def stripZeroWidth (s : Str) : Str := s.filter fun c => !(isZeroWidth c)

/-- `.replace(/ /g, " ")`. -/
def replNbsp (s : Str) : Str := s.map fun c => if c.val = 160 then ' ' else c

/-- The regex class `[A-Za-z]`. -/
def isAsciiLetter (c : Char) : Bool :=
  ('A' ≤ c && c ≤ 'Z') || ('a' ≤ c && c ≤ 'z')

/-- `.replace(/([A-Za-z])\-\n([A-Za-z])/g, "$1$2")`: a global regex scan,
so after a match the scan resumes after the matched second letter. -/
def dehyphenate : Str → Str
  | [] => []
  | [c] => [c]
  | [c, d] => [c, d]
  | [c, d, e] => [c, d, e]
  | c :: d :: e :: f :: rest =>
    if isAsciiLetter c ∧ d = '-' ∧ e = '\n' ∧ isAsciiLetter f
    then c :: f :: dehyphenate rest
    else c :: dehyphenate (d :: e :: f :: rest)

/-- The class `[•·●▪︎■]` of the bullet-normalizing replace; note the JS
source spells `▪︎` as U+25AA followed by the variation selector U+FE0E, so
the class contains both code points. -/
def isBulletChar (c : Char) : Bool :=
  c.val = 0x2022 || c.val = 0xB7 || c.val = 0x25CF || c.val = 0x25AA ||
  c.val = 0xFE0E || c.val = 0x25A0

/-- `.replace(/[•·●▪︎■]/g, "-")`. -/
def replBullets (s : Str) : Str := s.map fun c => if isBulletChar c then '-' else c

/-- Split on `'\n'`, JS `String.prototype.split` style (an empty string
yields one empty line). -/
def splitNl : Str → List Str
  | [] => [[]]
  | c :: rest =>
    if c = '\n' then [] :: splitNl rest
    else
      match splitNl rest with
      | l :: ls => (c :: l) :: ls
      | [] => [[c]]

/-- JS `lines.join("\n")`. -/
def joinNl : List Str → Str
  | [] => []
  | [l] => l
  | l :: ls => l ++ '\n' :: joinNl ls

/-- Case-insensitive match of an ASCII-lowercase literal against the head
of the input, returning the rest on success. -/
def stripCI : Str → Str → Option Str
  | [], s => some s
  | _ :: _, [] => none
  | c :: cs, x :: xs =>
    if (if 'A' ≤ x ∧ x ≤ 'Z' then Char.ofNat (x.toNat + 32) else x) = c
    then stripCI cs xs else none

def isDigitChar (c : Char) : Bool := '0' ≤ c && c ≤ '9'

/-- One line matching `/^\s*Page\s+\d+\s*(of\s+\d+)?\s*$/i` (the `m` flag
makes the source regex per-line; `\s` is modelled by `isWSChar`). -/
def isPageMarker (l : Str) : Bool :=
  match stripCI "page".toList (l.dropWhile isWSChar) with
  | none => false
  | some [] => false
  | some (c :: rest) =>
    if isWSChar c then
      let l3 := rest.dropWhile isWSChar
      if l3.takeWhile isDigitChar = [] then false
      else
        let l4 := (l3.dropWhile isDigitChar).dropWhile isWSChar
        match stripCI "of".toList l4 with
        | some [] => false
        | some (c2 :: rest2) =>
          if isWSChar c2 then
            let l7 := rest2.dropWhile isWSChar
            if l7.takeWhile isDigitChar = [] then false
            else ((l7.dropWhile isDigitChar).dropWhile isWSChar) = []
          else false
        | none => l4 = []
    else false

/-- `.replace(/^\s*Page\s+\d+\s*(of\s+\d+)?\s*$/gim, "")`: the matched line
content is replaced by the empty string; the newlines stay. -/
def stripPageMarkers (s : Str) : Str :=
  joinNl ((splitNl s).map fun l => if isPageMarker l then [] else l)

/-- `.replace(/\n{3,}/g, "\n\n")` with structural fuel (the fuel is only a
termination device: it never runs out when it starts at the input length,
since every step consumes at least one character). A maximal run of three
or more newlines collapses to exactly two. -/
def collapseNewlinesAux : Nat → Str → Str
  | 0, s => s
  | _, [] => []
  | _, [a] => [a]
  | _, [a, b] => [a, b]
  | fuel + 1, a :: b :: c :: rest =>
    if a = '\n' ∧ b = '\n' ∧ c = '\n'
    then '\n' :: '\n' :: collapseNewlinesAux fuel (rest.dropWhile (fun x => x = '\n'))
    else a :: collapseNewlinesAux fuel (b :: c :: rest)

def collapseNewlines (s : Str) : Str := collapseNewlinesAux s.length s

/-- `split("\n").map(line => line.replace(/\s+$/g, "")).join("\n")`. -/
def stripTrailingWS (s : Str) : Str :=
  joinNl ((splitNl s).map fun l => (l.reverse.dropWhile isWSChar).reverse)

/-- `cleanPrdText` from src/app/page.tsx: the whole normalization chain,
ending in `.trim()`. -/
def cleanPrdText (s : Str) : Str :=
  trimChars (stripTrailingWS (collapseNewlines (stripPageMarkers (replBullets
    (dehyphenate (replNbsp (stripZeroWidth (replCR (replCRLF s)))))))))

/- ## Lemmas: every stage of the normalizer is length-nonincreasing -/

theorem replCRLF_length : ∀ s : Str, (replCRLF s).length ≤ s.length
  | [] => Nat.le_refl _
  | [_] => Nat.le_refl _
  | a :: b :: rest => by
    show (if a = '\r' ∧ b = '\n' then '\n' :: replCRLF rest
          else a :: replCRLF (b :: rest)).length ≤ (a :: b :: rest).length
    split
    · have := replCRLF_length rest
      simp only [List.length_cons]
      omega
    · have := replCRLF_length (b :: rest)
      simp only [List.length_cons] at *
      omega

theorem dehyphenate_length : ∀ s : Str, (dehyphenate s).length ≤ s.length
  | [] => Nat.le_refl _
  | [_] => Nat.le_refl _
  | [_, _] => Nat.le_refl _
  | [_, _, _] => Nat.le_refl _
  | c :: d :: e :: f :: rest => by
    show (if isAsciiLetter c ∧ d = '-' ∧ e = '\n' ∧ isAsciiLetter f
          then c :: f :: dehyphenate rest
          else c :: dehyphenate (d :: e :: f :: rest)).length ≤
        (c :: d :: e :: f :: rest).length
    split
    · have := dehyphenate_length rest
      simp only [List.length_cons]
      omega
    · have := dehyphenate_length (d :: e :: f :: rest)
      simp only [List.length_cons] at *
      omega

theorem splitNl_ne_nil : ∀ s : Str, splitNl s ≠ []
  | [] => by simp [splitNl]
  | c :: rest => by
    show (if c = '\n' then [] :: splitNl rest
          else match splitNl rest with
            | l :: ls => (c :: l) :: ls
            | [] => [[c]]) ≠ []
    split
    · simp
    · rcases h : splitNl rest with _ | ⟨l, ls⟩ <;> simp [h]

theorem joinNl_splitNl : ∀ s : Str, joinNl (splitNl s) = s
  | [] => rfl
  | c :: rest => by
    by_cases hc : c = '\n'
    · subst hc
      show joinNl (if ('\n' : Char) = '\n' then [] :: splitNl rest
          else match splitNl rest with
            | l :: ls => ('\n' :: l) :: ls
            | [] => [['\n']]) = '\n' :: rest
      rw [if_pos rfl]
      rcases h : splitNl rest with _ | ⟨l, ls⟩
      · exact absurd h (splitNl_ne_nil rest)
      · have hr := joinNl_splitNl rest
        rw [h] at hr
        show [] ++ '\n' :: joinNl (l :: ls) = '\n' :: rest
        rw [hr]
        rfl
    · show joinNl (if c = '\n' then [] :: splitNl rest
          else match splitNl rest with
            | l :: ls => (c :: l) :: ls
            | [] => [[c]]) = c :: rest
      rw [if_neg hc]
      rcases h : splitNl rest with _ | ⟨l, ls⟩
      · exact absurd h (splitNl_ne_nil rest)
      · have hr := joinNl_splitNl rest
        rw [h] at hr
        simp only [h]
        cases ls with
        | nil =>
          show c :: l = c :: rest
          rw [show joinNl [l] = l from rfl] at hr
          rw [hr]
        | cons l2 ls2 =>
          show (c :: l) ++ '\n' :: joinNl (l2 :: ls2) = c :: rest
          rw [show joinNl (l :: l2 :: ls2) = l ++ '\n' :: joinNl (l2 :: ls2) from rfl] at hr
          rw [← hr]
          simp

theorem joinNl_map_length_le (f : Str → Str) (h : ∀ l, (f l).length ≤ l.length) :
    ∀ ls : List Str, (joinNl (ls.map f)).length ≤ (joinNl ls).length
  | [] => Nat.le_refl _
  | [l] => h l
  | l :: l2 :: ls => by
    show (f l ++ '\n' :: joinNl ((l2 :: ls).map f)).length ≤
        (l ++ '\n' :: joinNl (l2 :: ls)).length
    have h1 := joinNl_map_length_le f h (l2 :: ls)
    have h2 := h l
    simp only [List.length_append, List.length_cons]
    omega

theorem stripPageMarkers_length (s : Str) : (stripPageMarkers s).length ≤ s.length := by
  unfold stripPageMarkers
  have h := joinNl_map_length_le (fun l => if isPageMarker l then [] else l)
    (fun l => by dsimp only; split <;> simp) (splitNl s)
  rw [joinNl_splitNl s] at h
  exact h

theorem collapseNewlinesAux_length : ∀ (fuel : Nat) (s : Str),
    (collapseNewlinesAux fuel s).length ≤ s.length
  | 0, s => by
    have h0 : collapseNewlinesAux 0 s = s := by
      cases s with
      | nil => rfl
      | cons a t =>
        cases t with
        | nil => rfl
        | cons b t2 =>
          cases t2 with
          | nil => rfl
          | cons c r => rfl
    rw [h0]
  | _ + 1, [] => Nat.le_refl _
  | _ + 1, [_] => Nat.le_refl _
  | _ + 1, [_, _] => Nat.le_refl _
  | fuel + 1, a :: b :: c :: rest => by
    show (if a = '\n' ∧ b = '\n' ∧ c = '\n'
          then '\n' :: '\n' :: collapseNewlinesAux fuel (rest.dropWhile (fun x => x = '\n'))
          else a :: collapseNewlinesAux fuel (b :: c :: rest)).length ≤
        (a :: b :: c :: rest).length
    split
    · have h1 := collapseNewlinesAux_length fuel (rest.dropWhile (fun x => x = '\n'))
      have h2 := (dropWhile_isSuffix (fun x => x = '\n') rest).length_le
      simp only [List.length_cons]
      omega
    · have h1 := collapseNewlinesAux_length fuel (b :: c :: rest)
      simp only [List.length_cons] at *
      omega

theorem stripTrailingWS_length (s : Str) : (stripTrailingWS s).length ≤ s.length := by
  unfold stripTrailingWS
  have h := joinNl_map_length_le (fun l => (l.reverse.dropWhile isWSChar).reverse)
    (fun l => by
      have := (dropWhile_isSuffix isWSChar l.reverse).length_le
      simpa using this) (splitNl s)
  rw [joinNl_splitNl s] at h
  exact h

theorem trimChars_length_le (s : Str) : (trimChars s).length ≤ s.length := by
  unfold trimChars
  have h1 := (dropWhile_isSuffix isWSChar s).length_le
  have h2 := (dropWhile_isSuffix isWSChar (s.dropWhile isWSChar).reverse).length_le
  simp only [List.length_reverse] at *
  omega

/-- C9 counterexample: the hyphen-rejoin scan resumes after each match, so
overlapping letter-hyphen-newline-letter chains survive one pass and are
rewritten again by a second pass: `cleanPrdText` is not idempotent. -/
theorem claim9_counterexample :
    cleanPrdText (cleanPrdText "a-\nb-\nc".toList) ≠ cleanPrdText "a-\nb-\nc".toList := by
  decide

/-- C9 amended: the normalizer is a deterministic, total, side-effect-free
function (inherent to the functional embedding), and it never lengthens its
input; but it is not idempotent in general (see the counterexample), only
on inputs it leaves fixed. -/
theorem claim9_cleanPrdText_behavior :
    (∀ s : Str, (cleanPrdText s).length ≤ s.length) ∧
    (∀ s : Str, cleanPrdText s = s → cleanPrdText (cleanPrdText s) = cleanPrdText s) := by
  constructor
  · intro s
    unfold cleanPrdText collapseNewlines
    have h1 := replCRLF_length s
    have h2 : ((replCRLF s).map fun c => if c = '\r' then '\n' else c).length =
        (replCRLF s).length := List.length_map _ _
    have h3 := List.Sublist.length_le
      (List.filter_sublist (l := replCR (replCRLF s)) (p := fun c => !(isZeroWidth c)))
    have h4 : (stripZeroWidth (replCR (replCRLF s))).length =
        (replNbsp (stripZeroWidth (replCR (replCRLF s)))).length :=
      (List.length_map _ _).symm
    have h5 := dehyphenate_length (replNbsp (stripZeroWidth (replCR (replCRLF s))))
    have h6 : (dehyphenate (replNbsp (stripZeroWidth (replCR (replCRLF s))))).length =
        (replBullets (dehyphenate (replNbsp (stripZeroWidth (replCR (replCRLF s)))))).length :=
      (List.length_map _ _).symm
    have h7 := stripPageMarkers_length
      (replBullets (dehyphenate (replNbsp (stripZeroWidth (replCR (replCRLF s))))))
    have h8 := collapseNewlinesAux_length
      (stripPageMarkers (replBullets (dehyphenate (replNbsp (stripZeroWidth
        (replCR (replCRLF s))))))).length
      (stripPageMarkers (replBullets (dehyphenate (replNbsp (stripZeroWidth
        (replCR (replCRLF s)))))))
    have h9 := stripTrailingWS_length (collapseNewlinesAux
      (stripPageMarkers (replBullets (dehyphenate (replNbsp (stripZeroWidth
        (replCR (replCRLF s))))))).length
      (stripPageMarkers (replBullets (dehyphenate (replNbsp (stripZeroWidth
        (replCR (replCRLF s))))))))
    have h10 := trimChars_length_le (stripTrailingWS (collapseNewlinesAux
      (stripPageMarkers (replBullets (dehyphenate (replNbsp (stripZeroWidth
        (replCR (replCRLF s))))))).length
      (stripPageMarkers (replBullets (dehyphenate (replNbsp (stripZeroWidth
        (replCR (replCRLF s)))))))))
    unfold replCR stripZeroWidth replNbsp replBullets at *
    omega
  · intro s h
    rw [h, h]

/-- C9 witness: a string the normalizer leaves fixed satisfies both parts. -/
theorem claim9_cleanPrdText_behavior_witness :
    (cleanPrdText "hello".toList).length ≤ "hello".toList.length ∧
    cleanPrdText (cleanPrdText "hello".toList) = cleanPrdText "hello".toList :=
  ⟨claim9_cleanPrdText_behavior.1 "hello".toList,
   claim9_cleanPrdText_behavior.2 "hello".toList (by decide)⟩

/- ## Generation orchestrator and POST handler (src/app/page.tsx) -/

/-- The request shape `PlanRequestSchema` (optional context fields). -/
structure PlanRequest where
  prd : Str
  productName : Option Str
  targetUser : Option Str
  platform : Option Platform
  constraints : Option Str
  releaseDate : Option Str

/-- One oracle outcome: the `generateText` call either yields a decoded
PlanCore or raises, with the raised error abstracted to its message. -/
inductive OracleResult
  | ok (core : PlanCore)
  | err (msg : Str)

/-- One oracle invocation as made by `generatePlanObject`. -/
structure GenCall where
  prompt : Str
  temperature : Int
deriving DecidableEq

/-- The prompt template body of `buildPrompt` (everything between the
leading and trailing newline of the template literal). -/
def promptBody (input : PlanRequest) (cleanedPrd : Str) : Str :=
  "You are a PRD-to-Ticket agent.\n\nHard requirements:\n- Return ONLY a JSON object that matches the provided schema. No markdown. No extra keys.\n- Always include EVERY field in the schema for EVERY object.\n  - If unknown: use \"\" for strings, [] for arrays, \x7b\x7d for objects.\n- If critical info is missing, add up to 6 clarifying questions to meta.openQuestions, but still produce a best-effort plan.\n\nID rules (critical for schema validity):\n- Epics MUST use epicId values: \"E1\", \"E2\", ... sequential.\n- Tickets MUST use ticketId values: \"T1\", \"T2\", ... sequential.\n- Every ticket MUST include \"epicId\" and it MUST match one of the epics[].epicId values.\n- Every epic MUST include a \"tickets\" array listing ticketIds that belong to that epic.\n\nQuality bar:\n- 2-4 epics, 6-10 tickets total.\n- Each epic must include at least 2 edgeCases.\n- Each ticket must include:\n  - at least 3 acceptanceCriteria\n  - at least 2 qa.testCases\n  - outOfScope for at least ~30% of tickets to show tradeoffs\n  - analytics.events with at least 1 event and at least 2 properties\n\nOutput guidance:\n- Summarize and rephrase, do NOT copy long passages from the PRD verbatim.\n- Keep each ticket description to 2-5 lines.\n- Keep acceptance criteria and test cases as short bullet-like strings.\n\nContext fields:\n- productName: ".toList ++
  input.productName.getD "Unnamed product".toList ++
  "\n- targetUser: ".toList ++ input.targetUser.getD "Not specified".toList ++
  "\n- platform: ".toList ++ platformStr (input.platform.getD Platform.web) ++
  "\n- constraints: ".toList ++ input.constraints.getD "None provided".toList ++
  "\n- releaseDate: ".toList ++ input.releaseDate.getD "Not specified".toList ++
  "\n\nPRD:\n".toList ++ cleanedPrd

/-- `buildPrompt` from src/app/page.tsx: the template literal, trimmed. -/
def buildPrompt (input : PlanRequest) (cleanedPrd : Str) : Str :=
  trimChars ("\n".toList ++ promptBody input cleanedPrd ++ "\n".toList)

/-- The fixed text between the first prompt and the cited error message in
the retry prompt. -/
def retryPre : Str :=
  "\n\nIMPORTANT:\nA previous attempt failed schema validation with this error:\n".toList

/-- The fixed rule-restating text after the cited error message in the
retry prompt. -/
def retryPost : Str :=
  "\n\nFix it by ensuring:\n- Every ticket includes epicId and it matches an existing epicId (E1, E2, ...)\n- No keys are omitted anywhere\n- acceptanceCriteria has 3+ items for every ticket\n- qa.testCases has 2+ items for every ticket\n- analytics.events has at least 1 event for every ticket".toList

/-- The `retryPrompt` template literal of `POST`, trimmed. -/
def retryPrompt (prompt msg : Str) : Str :=
  trimChars ("\n".toList ++ prompt ++ retryPre ++ msg ++ retryPost ++ "\n".toList)

/-- The try/catch around the two `generatePlanObject` calls in `POST`,
with a log of the oracle invocations actually made. -/
def runGeneration (oracle : Str → Int → OracleResult) (prompt : Str) :
    Except Str PlanCore × List GenCall :=
  match oracle prompt 0 with
  | OracleResult.ok p => (Except.ok p, [⟨prompt, 0⟩])
  | OracleResult.err msg =>
    match oracle (retryPrompt prompt msg) 0 with
    | OracleResult.ok p =>
      (Except.ok p, [⟨prompt, 0⟩, ⟨retryPrompt prompt msg, 0⟩])
    | OracleResult.err msg2 =>
      (Except.error msg2, [⟨prompt, 0⟩, ⟨retryPrompt prompt msg, 0⟩])

/-- The failure response `{ error: "PLAN_GENERATION_FAILED", message }`. -/
structure FailPayload where
  error : Str
  message : Str
deriving DecidableEq

structure PlanExports where
  markdown : Str
  linear : List LinearLink
deriving DecidableEq

/-- The full `Plan` (`PlanCore` plus `exports`). -/
structure Plan where
  meta : Meta
  summary : Summary
  epics : List Epic
  tickets : List Ticket
  exports : PlanExports
deriving DecidableEq

/-- `${n}` for the (integer-modelled) confidence value. -/
def intToChars (n : Int) : Str :=
  if n < 0 then '-' :: natToChars n.natAbs else natToChars n.toNat

/-- `planToMarkdown` from src/lib/markdown (src/app/page.tsx lines
1241-1295). -/
def planToMarkdown (plan : Plan) : Str :=
  joinNl
    (["# ".toList ++ plan.meta.productName ++ " - Ticket Pack".toList,
      [],
      "Platform: ".toList ++ platformStr plan.meta.platform ++
        " | Confidence: ".toList ++ intToChars plan.meta.confidence ++ "/100".toList,
      [],
      "## Summary".toList,
      "Problem: ".toList ++ plan.summary.problem,
      [],
      "Target users:".toList] ++
    plan.summary.targetUsers.map (fun u => "- ".toList ++ u) ++
    [[], "Goals:".toList] ++ plan.summary.goals.map (fun g => "- ".toList ++ g) ++
    [[], "Non-goals:".toList] ++ plan.summary.nonGoals.map (fun ng => "- ".toList ++ ng) ++
    [[], "Success metrics:".toList] ++
    plan.summary.successMetrics.map (fun sm => "- ".toList ++ sm) ++
    [[], "## Assumptions".toList] ++ plan.meta.assumptions.map (fun a => "- ".toList ++ a) ++
    [[]] ++
    (if plan.meta.openQuestions ≠ [] then
      ["## Open questions".toList] ++
        plan.meta.openQuestions.map (fun q => "- ".toList ++ q) ++ [[]]
     else []) ++
    ["## Epics".toList] ++
    plan.epics.flatMap (fun e =>
      ["### ".toList ++ e.epicId ++ " - ".toList ++ e.title,
       "Outcome: ".toList ++ e.outcome,
       "Tickets:".toList] ++ e.tickets.map (fun tid => "- ".toList ++ tid) ++
      ["Edge cases:".toList] ++ e.edgeCases.map (fun ec => "- ".toList ++ ec) ++ [[]]) ++
    ["## Tickets".toList, []] ++
    plan.tickets.flatMap (fun t => [mdTicketToMarkdown t, [], "---".toList, []]))

/-- The export-assembly steps of `POST`: empty exports, then the linear
links, then the markdown rendering. -/
def assemblePlan (normalized : PlanCore) : Plan :=
  let p1 : Plan :=
    { meta := normalized.meta
      summary := normalized.summary
      epics := normalized.epics
      tickets := normalized.tickets
      exports := { markdown := [], linear := [] } }
  let p2 : Plan := { p1 with exports := { markdown := [], linear := buildLinearLinks p1.tickets } }
  { p2 with exports := { p2.exports with markdown := planToMarkdown p2 } }

/-- The `POST` handler of the plan-generation endpoint, generation path
only. A too-short `prd` makes `PlanRequestSchema.parse` throw, which the
outer catch turns into the same failure payload (the ZodError text is
abstracted to a fixed message). The final `PlanSchema.parse` never throws
on the assembled plan — every leaf of `PlanSchema` carries a catch and the
assembled structure is complete — so it introduces no failure path. -/
def handlePOST (oracle : Str → Int → OracleResult) (req : PlanRequest) :
    Except FailPayload Plan × List GenCall :=
  if req.prd.length < 20 then
    (Except.error ⟨"PLAN_GENERATION_FAILED".toList, "request validation failed".toList⟩, [])
  else
    match runGeneration oracle (buildPrompt req (cleanPrdText req.prd)) with
    | (Except.ok core, log) => (Except.ok (assemblePlan (normalizeIds core)), log)
    | (Except.error m, log) => (Except.error ⟨"PLAN_GENERATION_FAILED".toList, m⟩, log)

/- ## Lemmas: the retry prompt appends a section to the first prompt -/

theorem trimChars_sandwich {s : Str} (hne : s ≠ [])
    (h1 : ∀ c, s.head? = some c → isWSChar c = false)
    (h2 : ∀ c, s.getLast? = some c → isWSChar c = false) :
    trimChars ('\n' :: s ++ ['\n']) = s := by
  obtain ⟨c, u, rfl⟩ : ∃ c u, s = c :: u := by
    cases s with
    | nil => exact absurd rfl hne
    | cons a t => exact ⟨a, t, rfl⟩
  unfold trimChars
  rw [show ('\n' :: (c :: u) ++ ['\n'] : Str) = '\n' :: ((c :: u) ++ ['\n']) from rfl,
    List.dropWhile_cons, if_pos (by decide)]
  rw [show ((c :: u) ++ ['\n'] : Str) = c :: (u ++ ['\n']) from rfl,
    List.dropWhile_cons, if_neg (by simp [h1 c rfl])]
  rw [show (c :: (u ++ ['\n']) : Str) = (c :: u) ++ ['\n'] from rfl, List.reverse_append]
  rw [show ((['\n'] : Str).reverse ++ (c :: u).reverse : Str) =
    '\n' :: (c :: u).reverse from rfl]
  rw [List.dropWhile_cons, if_pos (by decide)]
  rw [dropWhile_eq_self_of_head (by
    intro x hx
    rw [List.head?_reverse] at hx
    exact h2 x hx)]
  exact List.reverse_reverse _

theorem retryPost_getLast : retryPost.getLast? = some 't' := by decide

theorem retryPrompt_eq {prompt : Str} (msg : Str) (hhead : ∃ u, prompt = 'Y' :: u) :
    retryPrompt prompt msg = prompt ++ retryPre ++ msg ++ retryPost := by
  obtain ⟨u, rfl⟩ := hhead
  unfold retryPrompt
  rw [show ("\n".toList : Str) = ['\n'] from rfl]
  rw [show (['\n'] ++ ('Y' :: u) ++ retryPre ++ msg ++ retryPost ++ ['\n'] : Str) =
      '\n' :: (('Y' :: u) ++ retryPre ++ msg ++ retryPost) ++ ['\n'] from by
    simp [List.append_assoc]]
  rw [trimChars_sandwich (by simp) ?_ ?_]
  · intro c hc
    rw [show ((('Y' :: u) ++ retryPre ++ msg ++ retryPost : Str)).head? = some 'Y' from rfl] at hc
    cases hc
    decide
  · intro c hc
    rw [show (('Y' :: u) ++ retryPre ++ msg ++ retryPost : Str) =
        (('Y' :: u) ++ retryPre ++ msg) ++ retryPost from by simp [List.append_assoc]] at hc
    rw [List.getLast?_append_of_ne_nil _ (by decide)] at hc
    rw [retryPost_getLast] at hc
    cases hc
    decide

theorem dropWhile_append_last {p : Char → Bool} {c : Char} (hc : p c = false) :
    ∀ l : Str, ∃ w, List.dropWhile p (l ++ [c]) = w ++ [c]
  | [] => ⟨[], by simp [List.dropWhile_cons, hc]⟩
  | a :: l => by
    rw [List.cons_append, List.dropWhile_cons]
    by_cases hp : p a
    · rw [if_pos hp]
      exact dropWhile_append_last hc l
    · rw [if_neg hp]
      exact ⟨a :: l, by simp⟩

theorem trimChars_head_shape {s : Str} {c : Char} (h : s.head? = some c)
    (hc : isWSChar c = false) : ∃ u, trimChars s = c :: u := by
  cases s with
  | nil => simp at h
  | cons a X =>
    simp only [List.head?_cons, Option.some.injEq] at h
    subst h
    unfold trimChars
    rw [List.dropWhile_cons, if_neg (by simp [hc])]
    rw [show (a :: X).reverse = X.reverse ++ [a] from by simp]
    obtain ⟨w, hw⟩ := dropWhile_append_last hc X.reverse
    rw [hw]
    exact ⟨w.reverse, by simp⟩

/-- After stripping the template's leading newline, `buildPrompt` always
starts with the template text, so its first character is `'Y'`. -/
theorem buildPrompt_head (req : PlanRequest) (cleaned : Str) :
    ∃ u, buildPrompt req cleaned = 'Y' :: u := by
  unfold buildPrompt
  rw [show ("\n".toList ++ promptBody req cleaned ++ "\n".toList : Str) =
      '\n' :: (promptBody req cleaned ++ ['\n']) from by
    rw [show ("\n".toList : Str) = ['\n'] from rfl]
    simp]
  rw [show trimChars ('\n' :: (promptBody req cleaned ++ ['\n'])) =
      trimChars (promptBody req cleaned ++ ['\n']) from by
    unfold trimChars
    rw [List.dropWhile_cons, if_pos (by decide)]]
  apply trimChars_head_shape ?_ (by decide)
  rfl

/-- A fixture request whose `prd` passes the 20-character minimum. -/
def sampleRequest : PlanRequest :=
  ⟨"This PRD input has more than twenty characters.".toList, none, none, none, none, none⟩

attribute [irreducible] promptBody buildPrompt

/-- C6: per plan-generation request the oracle is invoked at most twice,
always at temperature 0; a second invocation happens exactly when the
first raises, and its payload is the first payload with the fixed
error-citing section (`retryPre ++ msg ++ retryPost`, which restates the
epicId cross-reference, no-omitted-keys and minimum-list-length rules)
appended; when the second also raises, the response is the failure payload
`PLAN_GENERATION_FAILED` carrying the second error's message, with no
third attempt. -/
theorem claim6_generation_protocol (oracle : Str → Int → OracleResult) (req : PlanRequest)
    (prompt : Str) (hp : prompt = buildPrompt req (cleanPrdText req.prd))
    (hlen : 20 ≤ req.prd.length) :
    (handlePOST oracle req).2.length ≤ 2 ∧
    (∀ call ∈ (handlePOST oracle req).2, call.temperature = 0) ∧
    (∀ p, oracle prompt 0 = OracleResult.ok p →
      (handlePOST oracle req).2 = [⟨prompt, 0⟩] ∧
      (handlePOST oracle req).1 = Except.ok (assemblePlan (normalizeIds p))) ∧
    (∀ msg, oracle prompt 0 = OracleResult.err msg →
      (handlePOST oracle req).2 =
        [⟨prompt, 0⟩, ⟨prompt ++ retryPre ++ msg ++ retryPost, 0⟩]) ∧
    (∀ msg msg2, oracle prompt 0 = OracleResult.err msg →
      oracle (retryPrompt prompt msg) 0 = OracleResult.err msg2 →
      (handlePOST oracle req).1 =
        Except.error ⟨"PLAN_GENERATION_FAILED".toList, msg2⟩) := by
  subst hp
  have hnot : ¬ (req.prd.length < 20) := by omega
  have hretry : ∀ msg, retryPrompt (buildPrompt req (cleanPrdText req.prd)) msg =
      buildPrompt req (cleanPrdText req.prd) ++ retryPre ++ msg ++ retryPost :=
    fun msg => retryPrompt_eq msg (buildPrompt_head req (cleanPrdText req.prd))
  unfold handlePOST runGeneration
  rw [if_neg hnot]
  cases h1 : oracle (buildPrompt req (cleanPrdText req.prd)) 0 with
  | ok p =>
    refine ⟨by simp, by simp, ?_, ?_, ?_⟩
    · intro q hq
      injection hq with hpq
      subst hpq
      exact ⟨rfl, rfl⟩
    · intro msg hmsg
      exact absurd hmsg (by simp)
    · intro msg msg2 hmsg _
      exact absurd hmsg (by simp)
  | err msg =>
    cases h2 : oracle (retryPrompt (buildPrompt req (cleanPrdText req.prd)) msg) 0 with
    | ok p2 =>
      refine ⟨by simp [h2], by simp [h2], ?_, ?_, ?_⟩
      · intro q hq
        exact absurd hq (by simp)
      · intro msg' hmsg'
        injection hmsg' with hm
        subst hm
        simp only [h2]
        rw [hretry msg]
      · intro msg' msg2 hmsg' h2'
        injection hmsg' with hm
        subst hm
        rw [h2] at h2'
        exact absurd h2' (by simp)
    | err m2 =>
      refine ⟨by simp [h2], by simp [h2], ?_, ?_, ?_⟩
      · intro q hq
        exact absurd hq (by simp)
      · intro msg' hmsg'
        injection hmsg' with hm
        subst hm
        simp only [h2]
        rw [hretry msg]
      · intro msg' msg2 hmsg' h2'
        injection hmsg' with hm
        subst hm
        rw [h2] at h2'
        injection h2' with hm2
        subst hm2
        simp only [h2]

/-- C6 witness: an oracle that always raises produces exactly the failure
payload with the second error's message. -/
theorem claim6_generation_protocol_witness :
    (handlePOST (fun _ _ => OracleResult.err "boom".toList) sampleRequest).1 =
      Except.error ⟨"PLAN_GENERATION_FAILED".toList, "boom".toList⟩ :=
  (claim6_generation_protocol (fun _ _ => OracleResult.err "boom".toList) sampleRequest
    _ rfl (by decide)).2.2.2.2 "boom".toList "boom".toList rfl rfl

end PrdTicket
